import Mathlib

/-!
Verification of the ElderCare-AI reminder service
(`src/server/routes/format_reminder.py`).

The development shallowly embeds the module: MongoDB documents become
association lists of string keys and BSON-like values, the collection
becomes an explicit store state threaded through each handler, the
process clock becomes an explicit parameter, and the two regular
expressions used to carve JSON out of the LLM output are modelled by
dedicated scanning functions with Python `re.search` semantics
(leftmost match; at each position the fenced alternative is tried
before the bare one; lazy quantifiers take the shortest span).
-/

set_option autoImplicit false

namespace ElderCare

/-- BSON-like values stored in documents and appearing in JSON request
and response bodies.  `oid` models `bson.ObjectId` (identified with its
24-hex-digit string form), `dt` models `datetime.datetime` (an abstract
instant, a `Nat` tick). The remaining constructors are the plain JSON
values produced by `pyjson.loads` and accepted by the HTTP layer. -/
inductive BVal where
  | null : BVal
  | bool (b : Bool) : BVal
  | num (n : Int) : BVal
  | str (s : String) : BVal
  | arr (elems : List BVal) : BVal
  | obj (fields : List (String × BVal)) : BVal
  | oid (s : String) : BVal
  | dt (t : Nat) : BVal
deriving Repr

/-- A MongoDB document / Python dict: an insertion-ordered association
list with (by construction) unique keys. -/
abbrev Doc := List (String × BVal)

/-- `d.get(k)` / `d[k]` lookup on a Python dict. -/
def getKey (d : Doc) (k : String) : Option BVal :=
  match d with
  | [] => none
  | (k', v) :: rest => if k' = k then some v else getKey rest k

/-- `d[k] = v` assignment on a Python dict: replaces the value in place
when the key is present, appends otherwise (insertion order kept). -/
def setKey (d : Doc) (k : String) (v : BVal) : Doc :=
  match d with
  | [] => [(k, v)]
  | (k', v') :: rest => if k' = k then (k, v) :: rest else (k', v') :: setKey rest k v

/-- Python truthiness of a value, as used by `x or default` and
`if not x`. -/
def truthy : BVal → Bool
  | .null => false
  | .bool b => b
  | .num n => n ≠ 0
  | .str s => s ≠ ""
  | .arr xs => !xs.isEmpty
  | .obj fs => !fs.isEmpty
  | .oid _ => true
  | .dt _ => true

/-- `d.get(k) or default`: the stored value when present and truthy,
the default otherwise. -/
def getOrElse (d : Doc) (k : String) (dflt : BVal) : BVal :=
  match getKey d k with
  | some v => if truthy v then v else dflt
  | none => dflt

/-- Models `datetime.isoformat()`: renders an instant as a string. -/
def dtIso (t : Nat) : String := "1970-01-01T00:00:00+" ++ toString t

/-- Python `str(...)` on the scalar values this module can place in a
document.  `str` of an `ObjectId` is its 24-hex-digit form; containers
never reach a `str` call on the code paths modelled here, so their
rendering is left as the empty string. -/
def pyStr : BVal → String
  | .str s => s
  | .oid s => s
  | .num n => toString n
  | .bool b => if b then "True" else "False"
  | .null => "None"
  | .dt t => dtIso t
  | .arr _ => ""
  | .obj _ => ""

/-- Hex digit character for `d < 16` (lowercase, as `str(ObjectId)`). -/
def hexChar (d : Nat) : Char :=
  if d < 10 then Char.ofNat (48 + d) else Char.ofNat (87 + d)

/-- Little-endian hexadecimal digits of `n`, with explicit fuel (an
ObjectId has 24 hex digits, so fuel 24 over `n mod 16^24` is exact). -/
def toHexDigitsAux : Nat → Nat → List Char
  | 0, _ => []
  | fuel + 1, n => if n = 0 then [] else hexChar (n % 16) :: toHexDigitsAux fuel (n / 16)

/-- The 24-hex-digit string form of the `n`-th ObjectId the store
assigns (big-endian hex of `n mod 16^24`, left-padded with zeros). -/
def hexStr24 (n : Nat) : String :=
  let ds := toHexDigitsAux 24 (n % 16 ^ 24)
  String.mk (List.replicate (24 - ds.length) (Char.ofNat 48) ++ ds.reverse)

/-- Hexadecimal digit test, as in `bson.ObjectId.is_valid`. -/
def isHexChar (c : Char) : Bool :=
  (Char.ofNat 48 ≤ c && c ≤ Char.ofNat 57) ||
  (Char.ofNat 97 ≤ c && c ≤ Char.ofNat 102) ||
  (Char.ofNat 65 ≤ c && c ≤ Char.ofNat 70)

/-- Models `ObjectId.is_valid` on a string: exactly 24 hex digits. -/
def objectIdIsValid (s : String) : Bool :=
  s.data.length = 24 && s.data.all isHexChar

/-- The process clock at the time a request is handled: the instant
(`datetime.now()`, stored in `created_at` / `updated_at`) together with
its `strftime("%Y-%m-%d")` rendering used for date defaulting. -/
structure Clock where
  instant : Nat
  dateStr : String

/-- The reminders collection: the stored documents in insertion order,
the counter from which the next assigned ObjectId is derived, and the
set of insertion counters at which `insert_one` raises a
`PyMongoError` (modelling transient store failures). -/
structure Store where
  docs : List Doc
  nextId : Nat
  failSet : List Nat

mutual

/-- `convert_to_json_friendly` on a document (the dict branch of the
source function): `_id` holding an ObjectId becomes `id` holding its
string form, other ObjectId values become strings, datetimes become
ISO strings, nested dicts recurse, lists map their dict items. -/
def convDoc : Doc → Doc
  | [] => []
  | (k, v) :: rest =>
    (match v with
     | .oid s => if k = "_id" then ("id", BVal.str s) else (k, BVal.str s)
     | .dt t => (k, BVal.str (dtIso t))
     | .obj fs => (k, BVal.obj (convDoc fs))
     | .arr xs => (k, BVal.arr (convList xs))
     | _ => (k, v)) :: convDoc rest

/-- The list branch of `convert_to_json_friendly`: dict items recurse,
all other items are kept unchanged. -/
def convList : List BVal → List BVal
  | [] => []
  | .obj fs :: rest => BVal.obj (convDoc fs) :: convList rest
  | x :: rest => x :: convList rest

end

/-- `save_to_mongodb`: copy the reminder, stamp `created_at` and
`updated_at` with the current instant, insert it (the store assigns a
fresh `_id` when the document has none; `insert_one` may raise a
`PyMongoError`, modelled by `failSet`), and return the JSON-friendly
projection with `id` set to `str(inserted_id)`. -/
def save_to_mongodb (clk : Clock) (st : Store) (reminder : Doc) :
    Except String (Store × Doc) :=
  let r1 := setKey reminder "created_at" (.dt clk.instant)
  let r2 := setKey r1 "updated_at" (.dt clk.instant)
  if st.nextId ∈ st.failSet then
    .error "PyMongoError"
  else
    let withId :=
      match getKey r2 "_id" with
      | some _ => r2
      | none => setKey r2 "_id" (.oid (hexStr24 st.nextId))
    let insertedId := (getKey withId "_id").getD .null
    let jsonSafe := setKey (convDoc withId) "id" (.str (pyStr insertedId))
    .ok ({ st with docs := st.docs ++ [withId], nextId := st.nextId + 1 }, jsonSafe)

/-- The loop of `process_reminders`: per reminder, apply the
`x or default` defaulting to title, date and time, build the document
`{userId, title, date, time}` and save it; an exception is caught,
rendered as `"Error processing reminder: ..."` and collected, and the
loop continues with the next reminder.  Returns the final store, the
successfully saved projections and the collected error strings. -/
def procLoop (clk : Clock) (uid : String) :
    List Doc → Store → Store × List Doc × List String
  | [], st => (st, [], [])
  | reminder :: rest, st =>
    let date := getOrElse reminder "date" (.str clk.dateStr)
    let title := getOrElse reminder "title" (.str "New Reminder")
    let time := getOrElse reminder "time" (.str "")
    let reminderData : Doc :=
      [("userId", .str uid), ("title", title), ("date", date), ("time", time)]
    match save_to_mongodb clk st reminderData with
    | .ok (st1, saved) =>
      let (st2, res, errs) := procLoop clk uid rest st1
      (st2, saved :: res, errs)
    | .error e =>
      let (st2, res, errs) := procLoop clk uid rest st
      (st2, res, ("Error processing reminder: " ++ e) :: errs)

/-- `process_reminders`: run the save loop; with no successful save the
response is a 400 error carrying the collected error strings, otherwise
a success envelope with the saved reminders, their count, and the error
list (`None` when empty). -/
def process_reminders (clk : Clock) (st : Store) (remindersList : List Doc)
    (uid : String) : Store × Nat × BVal :=
  let (st1, results, errors) := procLoop clk uid remindersList st
  if results.isEmpty then
    (st1, 400, .obj [("error", .str "No valid reminders found"),
                     ("details", .arr (errors.map .str))])
  else
    (st1, 200, .obj [("success", .bool true),
                     ("reminders", .arr (results.map .obj)),
                     ("count", .num results.length),
                     ("errors", if errors.isEmpty then .null
                                else .arr (errors.map .str))])

/-! ### The regex model

`format_reminder` locates JSON with
`re.search(r'X(?:json)?\s*(\[[\s\S]*?\])\s*X|(\[[\s\S]*?\])', content)`
(and the brace analogue), where `X` stands for three backticks.
`re.search` returns the leftmost match; at each position the fenced
alternative is tried before the bare one; the lazy `[\s\S]*?` takes the
shortest span that lets the rest of the alternative match. -/

/-- The backtick character. -/
def tick : Char := Char.ofNat 96

/-- Python `\s` on ASCII text: space, tab, newline, carriage return,
vertical tab, form feed. -/
def isWS (c : Char) : Bool :=
  c = ' ' || c = Char.ofNat 9 || c = Char.ofNat 10 || c = Char.ofNat 13 ||
  c = Char.ofNat 11 || c = Char.ofNat 12

/-- Does the text start with the three-backtick fence marker? -/
def startsTicks : List Char → Bool
  | c1 :: c2 :: c3 :: _ => c1 = tick && c2 = tick && c3 = tick
  | _ => false

/-- Lazy scan for the closing bracket of the bare alternative
`([\[\{][\s\S]*?[\]\}])`: the body up to the first closing character,
and the remainder after it. -/
def upToClose (close : Char) : List Char → Option (List Char × List Char)
  | [] => none
  | c :: rest =>
    if c = close then some ([], rest)
    else (upToClose close rest).map (fun p => (c :: p.1, p.2))

/-- Lazy scan for the closing bracket of the fenced alternative: the
body extends to the first closing character that is followed (after
`\s*`) by a closing fence; a closing character not so followed is
ordinary body content (regex backtracking). -/
def fenceClose (close : Char) : List Char → Option (List Char)
  | [] => none
  | c :: rest =>
    if c = close && startsTicks (rest.dropWhile isWS) then some []
    else (fenceClose close rest).map (c :: ·)

/-- Match of the bare alternative at the current position: the first
character must be the opening bracket, the capture runs to the first
closing bracket. -/
def bareCap (openC close : Char) (s : List Char) : Option (List Char) :=
  match s with
  | c :: rest =>
    if c = openC then (upToClose close rest).map (fun p => openC :: p.1 ++ [close])
    else none
  | [] => none

/-- Match of the fenced alternative at the current position: an opening
fence, an optional `json` tag, whitespace, then the bracketed capture,
whitespace, and a closing fence. -/
def fencedCap (openC close : Char) (s : List Char) : Option (List Char) :=
  if startsTicks s then
    let t := s.drop 3
    let t1 := if t.take 4 = ['j', 's', 'o', 'n'] then t.drop 4 else t
    match t1.dropWhile isWS with
    | c :: r =>
      if c = openC then (fenceClose close r).map (fun body => openC :: body ++ [close])
      else none
    | [] => none
  else none

/-- `re.search` over the whole text: scan positions left to right; at
each position try the fenced alternative, then the bare one; return the
capture group of the first alternative that matches. -/
def reSearchCap (openC close : Char) : List Char → Option (List Char)
  | [] => none
  | c :: rest =>
    match fencedCap openC close (c :: rest) with
    | some cap => some cap
    | none =>
      match bareCap openC close (c :: rest) with
      | some cap => some cap
      | none => reSearchCap openC close rest

/-- Array extraction: the capture of
`re.search(r'X(?:json)?\s*(\[[\s\S]*?\])\s*X|(\[[\s\S]*?\])', content)`
(`X` = fence marker), i.e. the first non-`None` group. -/
def extractArrayCandidate (content : List Char) : Option (List Char) :=
  reSearchCap (Char.ofNat 91) (Char.ofNat 93) content

/-- Object extraction: the capture of the `\{ ... \}` analogue. -/
def extractObjectCandidate (content : List Char) : Option (List Char) :=
  reSearchCap (Char.ofNat 123) (Char.ofNat 125) content

/-! ### The JSON reader

A model of `pyjson.loads` (strict JSON, numeric literals modelled over
the integers): either the parsed value, or `none` when the call raises
a `JSONDecodeError`. -/

/-- JSON inter-token whitespace: space, tab, newline, carriage return. -/
def isJsonWS (c : Char) : Bool :=
  c = ' ' || c = Char.ofNat 9 || c = Char.ofNat 10 || c = Char.ofNat 13

/-- Skip inter-token whitespace. -/
def skipJsonWS (s : List Char) : List Char := s.dropWhile isJsonWS

/-- Value of a hexadecimal digit. -/
def hexVal (c : Char) : Option Nat :=
  if Char.ofNat 48 ≤ c && c ≤ Char.ofNat 57 then some (c.toNat - 48)
  else if Char.ofNat 97 ≤ c && c ≤ Char.ofNat 102 then some (c.toNat - 87)
  else if Char.ofNat 65 ≤ c && c ≤ Char.ofNat 70 then some (c.toNat - 55)
  else none

/-- The character denoted by a single-character JSON escape. -/
def escChar (c : Char) : Option Char :=
  if c = Char.ofNat 34 then some (Char.ofNat 34)
  else if c = Char.ofNat 92 then some (Char.ofNat 92)
  else if c = Char.ofNat 47 then some (Char.ofNat 47)
  else if c = Char.ofNat 98 then some (Char.ofNat 8)
  else if c = Char.ofNat 102 then some (Char.ofNat 12)
  else if c = Char.ofNat 110 then some (Char.ofNat 10)
  else if c = Char.ofNat 114 then some (Char.ofNat 13)
  else if c = Char.ofNat 116 then some (Char.ofNat 9)
  else none

/-- Body of a JSON string literal, after the opening quote: the decoded
characters and the remainder after the closing quote.  Unescaped
control characters are rejected (strict mode). -/
def parseStrBody : List Char → Option (List Char × List Char)
  | [] => none
  | c :: rest =>
    if c = Char.ofNat 34 then some ([], rest)
    else if c = Char.ofNat 92 then
      match rest with
      | [] => none
      | e :: rest2 =>
        if e = Char.ofNat 117 then
          match rest2 with
          | h1 :: h2 :: h3 :: h4 :: rest3 =>
            match hexVal h1, hexVal h2, hexVal h3, hexVal h4 with
            | some a, some b, some c3, some d =>
              (parseStrBody rest3).map
                (fun p => (Char.ofNat (((a * 16 + b) * 16 + c3) * 16 + d) :: p.1, p.2))
            | _, _, _, _ => none
          | _ => none
        else
          match escChar e with
          | some ec => (parseStrBody rest2).map (fun p => (ec :: p.1, p.2))
          | none => none
    else if c.toNat < 32 then none
    else (parseStrBody rest).map (fun p => (c :: p.1, p.2))

/-- Decimal digit test. -/
def isDigitCh (c : Char) : Bool :=
  Char.ofNat 48 ≤ c && c ≤ Char.ofNat 57

/-- Numeric value of a digit run (most significant first). -/
def digitsVal (ds : List Char) : Nat :=
  ds.foldl (fun acc c => acc * 10 + (c.toNat - 48)) 0

/-- A JSON integer literal at the head of the text: optional minus,
then digits with no superfluous leading zero, not followed by a
fraction or exponent part (non-integer numerics are outside the
model). -/
def parseIntLit (s : List Char) : Option (Int × List Char) :=
  let (neg, s1) : Bool × List Char :=
    match s with
    | c :: rest => if c = Char.ofNat 45 then (true, rest) else (false, s)
    | [] => (false, s)
  let ds := s1.takeWhile isDigitCh
  let rest := s1.dropWhile isDigitCh
  if ds.isEmpty then none
  else if 1 < ds.length && ds.headD (Char.ofNat 48) = Char.ofNat 48 then none
  else
    match rest with
    | c :: _ =>
      if c = Char.ofNat 46 || c = Char.ofNat 101 || c = Char.ofNat 69 then none
      else some (if neg then -(digitsVal ds : Int) else (digitsVal ds : Int), rest)
    | [] => some (if neg then -(digitsVal ds : Int) else (digitsVal ds : Int), rest)

mutual

/-- A JSON value at the head of the text (no leading whitespace),
fuel-bounded. -/
def parseVal : Nat → List Char → Option (BVal × List Char)
  | 0, _ => none
  | Nat.succ fuel, s =>
    match s with
    | [] => none
    | c :: rest =>
      if c = Char.ofNat 34 then
        (parseStrBody rest).map (fun p => (.str (String.mk p.1), p.2))
      else if c = Char.ofNat 91 then
        match skipJsonWS rest with
        | c1 :: r1 =>
          if c1 = Char.ofNat 93 then some (.arr [], r1)
          else (parseElems fuel (c1 :: r1)).map (fun p => (.arr p.1, p.2))
        | [] => none
      else if c = Char.ofNat 123 then
        match skipJsonWS rest with
        | c1 :: r1 =>
          if c1 = Char.ofNat 125 then some (.obj [], r1)
          else (parseMembers fuel (c1 :: r1) []).map (fun p => (.obj p.1, p.2))
        | [] => none
      else if s.take 4 = ['t', 'r', 'u', 'e'] then some (.bool true, s.drop 4)
      else if s.take 5 = ['f', 'a', 'l', 's', 'e'] then some (.bool false, s.drop 5)
      else if s.take 4 = ['n', 'u', 'l', 'l'] then some (.null, s.drop 4)
      else (parseIntLit s).map (fun p => (.num p.1, p.2))

/-- The comma-separated elements of a non-empty JSON array, up to and
including the closing bracket. -/
def parseElems : Nat → List Char → Option (List BVal × List Char)
  | 0, _ => none
  | Nat.succ fuel, s =>
    match parseVal fuel s with
    | none => none
    | some (v, rest) =>
      match skipJsonWS rest with
      | c :: r =>
        if c = Char.ofNat 44 then
          (parseElems fuel (skipJsonWS r)).map (fun p => (v :: p.1, p.2))
        else if c = Char.ofNat 93 then some ([v], r)
        else none
      | [] => none

/-- The comma-separated members of a non-empty JSON object, up to and
including the closing brace; members are entered into the accumulating
dict, so a duplicated key keeps the last value, as in Python. -/
def parseMembers : Nat → List Char → Doc → Option (Doc × List Char)
  | 0, _, _ => none
  | Nat.succ fuel, s, acc =>
    match s with
    | c :: rest =>
      if c = Char.ofNat 34 then
        match parseStrBody rest with
        | none => none
        | some (key, r1) =>
          match skipJsonWS r1 with
          | c2 :: r2 =>
            if c2 = Char.ofNat 58 then
              match parseVal fuel (skipJsonWS r2) with
              | none => none
              | some (v, r3) =>
                let acc1 := setKey acc (String.mk key) v
                match skipJsonWS r3 with
                | c4 :: r4 =>
                  if c4 = Char.ofNat 44 then parseMembers fuel (skipJsonWS r4) acc1
                  else if c4 = Char.ofNat 125 then some (acc1, r4)
                  else none
                | [] => none
            else none
          | [] => none
      else none
    | [] => none

end

/-- `pyjson.loads` on the captured substring: the parsed value, or
`none` when parsing raises. -/
def pyjson_loads (s : List Char) : Option BVal :=
  match parseVal (2 * s.length + 2) (skipJsonWS s) with
  | some (v, rest) => if (skipJsonWS rest).isEmpty then some v else none
  | none => none

/-! ### HTTP handlers

Each handler is modelled from the point its inputs are known: the
`/format-reminder` handler from the LLM response text and the validated
`userId` on (request validation of `input`/`userId` happens upstream of
the modelled region), the others from their request body or
parameters.  A handler returns the new store state (when it can write),
the HTTP status, and the JSON response body. -/

/-- The per-element body of the array path's defaulting loop: set
`date` to today and then `title` to `"New Reminder"` when the present
value is missing or falsy (`if not r.get(...)`). -/
def defaultElem (clk : Clock) (r : Doc) : Doc :=
  let r1 := if truthy ((getKey r "date").getD .null) then r
            else setKey r "date" (.str clk.dateStr)
  if truthy ((getKey r1 "title").getD .null) then r1
  else setKey r1 "title" (.str "New Reminder")

/-- The defaulting loop of the array path (`for r in reminders_array`):
a non-dict element raises an `AttributeError` (`none`), which the
surrounding `try` turns into a fall-through. -/
def defaultArrayElems (clk : Clock) : List BVal → Option (List Doc)
  | [] => some []
  | .obj r :: rest => (defaultArrayElems clk rest).map (defaultElem clk r :: ·)
  | _ :: _ => none

/-- The array path of `/format-reminder` (the guarded `try` block):
`some` result when a captured array parses to a non-empty list whose
per-element defaulting succeeds — the request is then answered by
`process_reminders` — and `none` (fall through to object extraction)
when no array is captured, parsing raises, the parse is not a non-empty
list, or an element raises during defaulting. -/
def arrayStage (clk : Clock) (st : Store) (content : String) (uid : String) :
    Option (Store × Nat × BVal) :=
  match extractArrayCandidate content.data with
  | none => none
  | some cap =>
    match pyjson_loads cap with
    | none => none
    | some (.arr elems) =>
      if 0 < elems.length then
        match defaultArrayElems clk elems with
        | none => none
        | some elems2 => some (process_reminders clk st elems2 uid)
      else none
    | some _ => none

/-- The 400 body of the object path's `except` branch:
`{"error": "Failed to parse or post JSON", "details": str(e), "raw": content}`. -/
def failParseBody (e : String) (content : String) : BVal :=
  .obj [("error", .str "Failed to parse or post JSON"),
        ("details", .str e), ("raw", .str content)]

/-- The single-object path of `/format-reminder`: extract a `{...}`
capture; with no capture answer 400 `"No JSON found in LLM response"`
with the raw text; otherwise parse it, default title/date/time, build
`{userId, title, date, time}` and save it; any exception in that `try`
(parse failure, non-dict parse, store failure) is answered by the 400
`"Failed to parse or post JSON"` body carrying the raw text. -/
def objectStage (clk : Clock) (st : Store) (content : String) (uid : String) :
    Store × Nat × BVal :=
  match extractObjectCandidate content.data with
  | none =>
    (st, 400, .obj [("error", .str "No JSON found in LLM response"),
                    ("raw", .str content)])
  | some cap =>
    match pyjson_loads cap with
    | none => (st, 400, failParseBody "JSONDecodeError" content)
    | some v =>
      match v with
      | .obj fields =>
        let title := getOrElse fields "title" (.str "New Reminder")
        let date := getOrElse fields "date" (.str clk.dateStr)
        let time := getOrElse fields "time" (.str "")
        let postData : Doc :=
          [("userId", .str uid), ("title", title), ("date", date), ("time", time)]
        match save_to_mongodb clk st postData with
        | .ok (st1, saved) =>
          (st1, 200, .obj [("success", .bool true), ("reminder", .obj saved)])
        | .error e => (st, 400, failParseBody e content)
      | _ => (st, 400, failParseBody "AttributeError" content)

/-- `POST /format-reminder` from the LLM response `content` on: the
array path when it succeeds, the object path otherwise. -/
def format_reminder (clk : Clock) (st : Store) (content : String) (uid : String) :
    Store × Nat × BVal :=
  match arrayStage clk st content uid with
  | some r => r
  | none => objectStage clk st content uid

/-- The list loop of `/reminder-data` (`for reminder in reminder_data`):
saves each element in turn with no per-element exception handling, so
the first failure (store error, or a non-dict element raising in
`reminder.copy()`) aborts the loop; the store keeps the documents
already inserted.  A falsy saved projection would be skipped
(`if saved:`). -/
def saveListLoop (clk : Clock) : List BVal → Store → Store × Except String (List Doc)
  | [], st => (st, .ok [])
  | v :: rest, st =>
    match v with
    | .obj fields =>
      match save_to_mongodb clk st fields with
      | .error e => (st, .error e)
      | .ok (st1, saved) =>
        match saveListLoop clk rest st1 with
        | (st2, .ok l) => (st2, .ok (if truthy (.obj saved) then saved :: l else l))
        | (st2, .error e) => (st2, .error e)
    | _ => (st, .error "AttributeError")

/-- The 500 body of `/reminder-data`'s `except` branch. -/
def saveFailBody (e : String) : BVal :=
  .obj [("error", .str ("Failed to save reminder data: " ++ e))]

/-- `POST /reminder-data`: reject a missing or falsy body with 400;
save a list element-by-element (a raised exception anywhere yields 500
with the message, keeping whatever was already inserted); save a single
dict directly; a non-dict, non-list body raises in `save_to_mongodb`
and yields 500. -/
def save_reminder_data (clk : Clock) (st : Store) (body : Option BVal) :
    Store × Nat × BVal :=
  match body with
  | none => (st, 400, .obj [("error", .str "No reminder data provided")])
  | some data =>
    if !truthy data then (st, 400, .obj [("error", .str "No reminder data provided")])
    else
      match data with
      | .arr l =>
        match saveListLoop clk l st with
        | (st1, .ok results) =>
          (st1, 200, .obj [("success", .bool true),
                           ("reminders", .arr (results.map .obj)),
                           ("count", .num results.length)])
        | (st1, .error e) => (st1, 500, saveFailBody e)
      | .obj fields =>
        match save_to_mongodb clk st fields with
        | .ok (st1, saved) =>
          (st1, 200, .obj [("success", .bool true), ("reminder", .obj saved)])
        | .error e => (st, 500, saveFailBody e)
      | _ => (st, 500, saveFailBody "AttributeError")

/-- `GET /reminders/<reminder_id>`: when the identifier is a valid
ObjectId, look the document up by `_id`; a malformed identifier, a
missing document, or a falsy (empty) document all answer 404. -/
def get_reminder_by_id (st : Store) (reminderId : String) : Nat × BVal :=
  let reminder : Option Doc :=
    if objectIdIsValid reminderId then
      st.docs.find? (fun d =>
        match getKey d "_id" with
        | some (.oid s) => s = reminderId
        | _ => false)
    else none
  match reminder with
  | some d =>
    if d.isEmpty then
      (404, .obj [("error", .str ("Reminder with ID " ++ reminderId ++ " not found"))])
    else (200, .obj [("success", .bool true), ("reminder", .obj (convDoc d))])
  | none =>
    (404, .obj [("error", .str ("Reminder with ID " ++ reminderId ++ " not found"))])

/-- `.isoformat()` applied to a `reminder.get(key, datetime.now())`
timestamp field in the `/reminders` listing: the stored instant, the
current instant when the key is missing, and an `AttributeError` when
the stored value is not a datetime. -/
def tsField (clk : Clock) (v : Option BVal) : Except String String :=
  match v with
  | none => .ok (dtIso clk.instant)
  | some (.dt t) => .ok (dtIso t)
  | some _ => .error "AttributeError"

/-- One formatted row of the `/reminders` listing: exactly the keys
`id`, `title`, `date`, `time`, `userId`, `created_at`, `updated_at`,
with `str()` of the `_id` (falling back to `id`, then `""`) and the
empty string for a missing title/date/time/userId. -/
def formatDoc (clk : Clock) (d : Doc) : Except String Doc := do
  let ca ← tsField clk (getKey d "created_at")
  let ua ← tsField clk (getKey d "updated_at")
  .ok [("id", .str (pyStr ((getKey d "_id").getD ((getKey d "id").getD (.str ""))))),
       ("title", (getKey d "title").getD (.str "")),
       ("date", (getKey d "date").getD (.str "")),
       ("time", (getKey d "time").getD (.str "")),
       ("userId", (getKey d "userId").getD (.str "")),
       ("created_at", .str ca),
       ("updated_at", .str ua)]

/-- The formatting loop of `/reminders`: the first raising row aborts
the listing (the handler's `except` answers 500). -/
def formatLoop (clk : Clock) : List Doc → Except String (List Doc)
  | [] => .ok []
  | d :: rest => do
    let fd ← formatDoc clk d
    let fds ← formatLoop clk rest
    .ok (fd :: fds)

/-- The Mongo filter `{"userId": user_id}` on a document. -/
def userMatches (uid : String) (d : Doc) : Bool :=
  match getKey d "userId" with
  | some (.str s) => s = uid
  | _ => false

/-- A stored document's timestamp fields are absent or datetimes — the
shape every document written by `save_to_mongodb` has (the module's
save paths always stamp `created_at`/`updated_at` with `datetime.now()`). -/
def tsOK (d : Doc) : Bool :=
  (match getKey d "created_at" with
   | none => true
   | some (.dt _) => true
   | some _ => false) &&
  (match getKey d "updated_at" with
   | none => true
   | some (.dt _) => true
   | some _ => false)

/-- What C10 claims of a rendered listing row `fd` for a stored
document `d`: exactly the seven listing fields and no others, with a
missing `title`/`date`/`time`/`userId` rendered as the empty string. -/
def ListedRow (d fd : Doc) : Prop :=
  fd.map Prod.fst = ["id", "title", "date", "time", "userId", "created_at", "updated_at"] ∧
  (∀ k, k ∉ (["id", "title", "date", "time", "userId", "created_at",
              "updated_at"] : List String) → getKey fd k = none) ∧
  (getKey d "title" = none → getKey fd "title" = some (.str "")) ∧
  (getKey d "date" = none → getKey fd "date" = some (.str "")) ∧
  (getKey d "time" = none → getKey fd "time" = some (.str "")) ∧
  (getKey d "userId" = none → getKey fd "userId" = some (.str ""))

/-- `GET /reminders?userId=`: 400 when the parameter is missing or
empty; otherwise list the user's documents, formatted row by row; an
exception while formatting answers 500. -/
def get_reminders (clk : Clock) (st : Store) (uid : Option String) : Nat × BVal :=
  match uid with
  | none => (400, .obj [("error", .str "userId is required")])
  | some u =>
    if u = "" then (400, .obj [("error", .str "userId is required")])
    else
      let matched := st.docs.filter (userMatches u)
      match formatLoop clk matched with
      | .ok fds =>
        (200, .obj [("success", .bool true),
                    ("reminders", .arr (fds.map .obj)),
                    ("count", .num fds.length)])
      | .error e => (500, .obj [("error", .str e)])

mutual

/-- Structural (BSON) equality of values, as used by Mongo filters. -/
def bvalEq : BVal → BVal → Bool
  | .null, .null => true
  | .bool a, .bool b => a == b
  | .num a, .num b => a == b
  | .str a, .str b => a == b
  | .arr a, .arr b => bvalListEq a b
  | .obj a, .obj b => bvalDocEq a b
  | .oid a, .oid b => a == b
  | .dt a, .dt b => a == b
  | _, _ => false

/-- Elementwise equality of value lists. -/
def bvalListEq : List BVal → List BVal → Bool
  | [], [] => true
  | a :: arest, b :: brest => bvalEq a b && bvalListEq arest brest
  | _, _ => false

/-- Entrywise equality of documents. -/
def bvalDocEq : Doc → Doc → Bool
  | [], [] => true
  | (k1, v1) :: r1, (k2, v2) :: r2 => k1 == k2 && bvalEq v1 v2 && bvalDocEq r1 r2
  | _, _ => false

end

/-- `delete_one`: remove the first document matching the filter;
`none` when no document matches (`deleted_count == 0`). -/
def deleteFirst (p : Doc → Bool) : List Doc → Option (List Doc)
  | [] => none
  | d :: rest => if p d then some rest else (deleteFirst p rest).map (d :: ·)

/-- The filter `{"_id": ObjectId(rid), "userId": uidv}` of
`/delete-reminder`. -/
def deleteMatches (rid : String) (uidv : BVal) (d : Doc) : Bool :=
  (match getKey d "_id" with
   | some (.oid t) => t = rid
   | _ => false) &&
  (match getKey d "userId" with
   | some v => bvalEq v uidv
   | _ => false)

/-- `POST /delete-reminder`: 400 when `id` or `userId` is missing or
falsy; `ObjectId(id)` raises on a malformed or non-string id (the
handler's `except` answers 500); `delete_one` on `{_id, userId}`;
`deleted_count == 0` answers 404, otherwise success. -/
def delete_reminder (st : Store) (body : Option BVal) : Store × Nat × BVal :=
  match body with
  | some (.obj data) =>
    let rid := (getKey data "id").getD .null
    let uidv := (getKey data "userId").getD .null
    if !truthy rid || !truthy uidv then
      (st, 400, .obj [("error", .str "Both id and userId are required")])
    else
      match rid with
      | .str s =>
        if objectIdIsValid s then
          match deleteFirst (deleteMatches s uidv) st.docs with
          | some docs1 =>
            ({ st with docs := docs1 }, 200,
             .obj [("success", .bool true),
                   ("message", .str ("Reminder with ID " ++ s ++ " deleted"))])
          | none =>
            (st, 404, .obj [("error", .str ("Reminder with ID " ++ s ++ " and userId "
                                            ++ pyStr uidv ++ " not found"))])
        else (st, 500, .obj [("error", .str "InvalidId")])
      | _ => (st, 500, .obj [("error", .str "InvalidId")])
  | _ => (st, 500, .obj [("error", .str "AttributeError")])

/-- Field access on a JSON response body (an object). -/
def bodyField (b : BVal) (k : String) : Option BVal :=
  match b with
  | .obj fs => getKey fs k
  | _ => none

/-- The defaulting policy as the specification claims it, relating an
extracted record `f` to the persisted document `d`: a missing or empty
`title` becomes `"New Reminder"`, a missing or empty `date` becomes
the current local date string, a missing or empty `time` becomes the
empty string (never a clock value), and any present truthy value is
kept unchanged. -/
def DefaultingSpec (clk : Clock) (f d : Doc) : Prop :=
  ((getKey f "title" = none ∨ getKey f "title" = some (.str "")) →
    getKey d "title" = some (.str "New Reminder")) ∧
  (∀ v, truthy v = true → getKey f "title" = some v → getKey d "title" = some v) ∧
  ((getKey f "date" = none ∨ getKey f "date" = some (.str "")) →
    getKey d "date" = some (.str clk.dateStr)) ∧
  (∀ v, truthy v = true → getKey f "date" = some v → getKey d "date" = some v) ∧
  ((getKey f "time" = none ∨ getKey f "time" = some (.str "")) →
    getKey d "time" = some (.str "")) ∧
  (∀ v, truthy v = true → getKey f "time" = some v → getKey d "time" = some v)

/-! ### Dictionary lemmas -/

theorem getKey_setKey_self (d : Doc) (k : String) (v : BVal) :
    getKey (setKey d k v) k = some v := by
  induction d with
  | nil => simp [setKey, getKey]
  | cons p rest ih =>
    obtain ⟨k', v'⟩ := p
    by_cases h : k' = k
    · simp [setKey, h, getKey]
    · simp [setKey, h, getKey, ih]

theorem getKey_setKey_ne (d : Doc) (k k' : String) (v : BVal) (h : k ≠ k') :
    getKey (setKey d k v) k' = getKey d k' := by
  induction d with
  | nil => simp [setKey, getKey, h]
  | cons p rest ih =>
    obtain ⟨k1, v1⟩ := p
    by_cases h1 : k1 = k
    · subst h1
      simp [setKey, getKey, h]
    · by_cases h2 : k1 = k'
      · simp [setKey, getKey, h1, h2, Ne.symm h]
      · simp [setKey, getKey, h1, h2, ih]

theorem deleteFirst_none (p : Doc → Bool) (docs : List Doc)
    (h : ∀ d ∈ docs, p d = false) : deleteFirst p docs = none := by
  induction docs with
  | nil => rfl
  | cons d rest ih =>
    have hd := h d (by simp)
    simp [deleteFirst, hd]
    exact ih (fun d' hd' => h d' (by simp [hd']))

theorem objectIdIsValid_ne_empty (s : String) (h : objectIdIsValid s = true) :
    s ≠ "" := by
  intro he
  subst he
  simp [objectIdIsValid] at h

/-! ### C7: a malformed identifier on `GET /reminders/:id` answers 404 -/

/-- C7: for every identifier string that is not a syntactically valid
store identifier (`ObjectId.is_valid` fails), `GET /reminders/:id`
returns a 404 not-found response — never a 500 — and carries the
not-found error body. -/
theorem claim_C7 (st : Store) (rid : String)
    (h : objectIdIsValid rid = false) :
    get_reminder_by_id st rid =
      (404, .obj [("error", .str ("Reminder with ID " ++ rid ++ " not found"))]) := by
  simp [get_reminder_by_id, h]

/-- Witness for C7 at the identifier `"not-an-objectid"` on a store
holding one document. -/
theorem claim_C7_witness :
    objectIdIsValid "not-an-objectid" = false ∧
    get_reminder_by_id ⟨[[("_id", .oid "not-an-objectid")]], 0, []⟩ "not-an-objectid" =
      (404, .obj [("error", .str "Reminder with ID not-an-objectid not found")]) :=
  ⟨by decide, claim_C7 ⟨[[("_id", .oid "not-an-objectid")]], 0, []⟩ "not-an-objectid" (by decide)⟩

/-! ### C8: deleting with the right id but the wrong user answers 404 -/

/-- C8: for a stored reminder whose valid id is `rid` and whose owner
is `v0`, calling `/delete-reminder` with `rid` and a different
`userId` returns 404 and leaves the store unchanged (deletion requires
both `id` and `userId` to match). -/
theorem claim_C8 (st : Store) (rid u v0 : String) (d0 : Doc)
    (hval : objectIdIsValid rid = true)
    (hu : u ≠ "")
    (hne : v0 ≠ u)
    (hd0 : d0 ∈ st.docs)
    (hid0 : getKey d0 "_id" = some (.oid rid))
    (hown : ∀ d ∈ st.docs, getKey d "_id" = some (.oid rid) →
            getKey d "userId" = some (.str v0)) :
    delete_reminder st (some (.obj [("id", .str rid), ("userId", .str u)])) =
      (st, 404, .obj [("error", .str ("Reminder with ID " ++ rid ++ " and userId "
                                      ++ u ++ " not found"))]) := by
  have hrid : rid ≠ "" := objectIdIsValid_ne_empty rid hval
  have hnone : deleteFirst (deleteMatches rid (.str u)) st.docs = none := by
    apply deleteFirst_none
    intro d hd
    unfold deleteMatches
    by_cases hid : getKey d "_id" = some (.oid rid)
    · have huser := hown d hd hid
      simp [hid, huser, bvalEq, hne]
    · rcases hmid : getKey d "_id" with _ | v
      · simp [hmid]
      · cases v <;> simp [hmid] <;> rename_i t <;>
          intro ht <;> exact absurd (by rw [hmid, ht]) hid
  simp [delete_reminder, getKey, truthy, pyStr, hrid, hu, hval, hnone]

/-- Witness for C8: a one-document store owned by `"alice"`, deletion
requested by `"bob"`. -/
theorem claim_C8_witness :
    delete_reminder ⟨[[("_id", .oid "00000000000000000000000a"),
                       ("userId", .str "alice")]], 1, []⟩
        (some (.obj [("id", .str "00000000000000000000000a"),
                     ("userId", .str "bob")])) =
      (⟨[[("_id", .oid "00000000000000000000000a"), ("userId", .str "alice")]], 1, []⟩,
       404, .obj [("error", .str "Reminder with ID 00000000000000000000000a and userId bob not found")]) := by
  have h := claim_C8 ⟨[[("_id", .oid "00000000000000000000000a"),
                        ("userId", .str "alice")]], 1, []⟩
    "00000000000000000000000a" "bob" "alice"
    [("_id", .oid "00000000000000000000000a"), ("userId", .str "alice")]
    (by decide) (by decide) (by decide) (by simp)
    (by simp [getKey])
    (by
      intro d hd _
      simp at hd
      subst hd
      simp [getKey])
  simpa using h

/-! ### Scan lemmas for the regex model -/

theorem startsTicks_cons_ne (c : Char) (rest : List Char) (hc : c ≠ tick) :
    startsTicks (c :: rest) = false := by
  unfold startsTicks
  cases rest with
  | nil => rfl
  | cons a r =>
    cases r with
    | nil => rfl
    | cons b r2 => simp [hc]

theorem fencedCap_none_of_ne (openC close c : Char) (rest : List Char) (hc : c ≠ tick) :
    fencedCap openC close (c :: rest) = none := by
  unfold fencedCap
  simp [startsTicks_cons_ne c rest hc]

theorem bareCap_none_of_ne (openC close c : Char) (rest : List Char) (hc : c ≠ openC) :
    bareCap openC close (c :: rest) = none := by
  unfold bareCap
  simp [hc]

theorem reSearchCap_cons (openC close : Char) (c : Char) (rest : List Char) :
    reSearchCap openC close (c :: rest) =
      match fencedCap openC close (c :: rest) with
      | some cap => some cap
      | none =>
        match bareCap openC close (c :: rest) with
        | some cap => some cap
        | none => reSearchCap openC close rest := rfl

/-- No alternative of the search pattern can match at a position whose
character opens neither a fence nor a bracket, so the scan skips any
such prefix. -/
theorem reSearchCap_append_skip (openC close : Char) (pre s : List Char)
    (hpre : ∀ c ∈ pre, c ≠ tick ∧ c ≠ openC) :
    reSearchCap openC close (pre ++ s) = reSearchCap openC close s := by
  induction pre with
  | nil => rfl
  | cons c p ih =>
    have hc := hpre c (by simp)
    have hrec := ih (fun c' hc' => hpre c' (by simp [hc']))
    have hstep : reSearchCap openC close ((c :: p) ++ s) = reSearchCap openC close (p ++ s) := by
      rw [show ((c :: p) ++ s) = c :: (p ++ s) from rfl, reSearchCap_cons]
      simp [fencedCap_none_of_ne openC close c _ hc.1,
            bareCap_none_of_ne openC close c _ hc.2]
    rw [hstep, hrec]

theorem upToClose_hit (close : Char) (body rest : List Char)
    (hb : ∀ c ∈ body, c ≠ close) :
    upToClose close (body ++ (close :: rest)) = some (body, rest) := by
  induction body with
  | nil => simp [upToClose]
  | cons c p ih =>
    have hc := hb c (by simp)
    have hrec := ih (fun c' h => hb c' (by simp [h]))
    simp [upToClose, hc, hrec]

theorem fenceClose_hit (close : Char) (body tail : List Char)
    (hb : ∀ c ∈ body, c ≠ close)
    (ht : startsTicks (tail.dropWhile isWS) = true) :
    fenceClose close (body ++ (close :: tail)) = some body := by
  induction body with
  | nil => simp [fenceClose, ht]
  | cons c p ih =>
    have hc := hb c (by simp)
    have hrec := ih (fun c' h => hb c' (by simp [h]))
    simp [fenceClose, hc, hrec]

/-! ### Store gateway lemmas -/

theorem truthy_getOrElse (d : Doc) (k : String) (dflt : BVal) (h : truthy dflt = true) :
    truthy (getOrElse d k dflt) = true := by
  cases hg : getKey d k with
  | none => simp [getOrElse, hg, h]
  | some v => by_cases ht : truthy v <;> simp [getOrElse, hg, ht, h]

theorem save_err_spec (clk : Clock) (st : Store) (r : Doc)
    (hfail : st.nextId ∈ st.failSet) :
    save_to_mongodb clk st r = .error "PyMongoError" := by
  unfold save_to_mongodb
  simp [hfail]

theorem save_ok_spec (clk : Clock) (st : Store) (r : Doc)
    (hfail : st.nextId ∉ st.failSet) (hid : getKey r "_id" = none) :
    save_to_mongodb clk st r =
      .ok ({ docs := st.docs ++ [setKey (setKey (setKey r "created_at" (.dt clk.instant))
                                   "updated_at" (.dt clk.instant)) "_id"
                                   (.oid (hexStr24 st.nextId))],
             nextId := st.nextId + 1, failSet := st.failSet },
           setKey (convDoc (setKey (setKey (setKey r "created_at" (.dt clk.instant))
                                   "updated_at" (.dt clk.instant)) "_id"
                                   (.oid (hexStr24 st.nextId))))
             "id" (.str (hexStr24 st.nextId))) := by
  have h2 : getKey (setKey (setKey r "created_at" (.dt clk.instant))
      "updated_at" (.dt clk.instant)) "_id" = none := by
    rw [getKey_setKey_ne _ _ _ _ (by decide), getKey_setKey_ne _ _ _ _ (by decide), hid]
  unfold save_to_mongodb
  simp [hfail, h2, getKey_setKey_self, pyStr]

/-- The fields of the document just inserted, other than the stamped
`created_at`/`updated_at`/`_id`, are those of the saved record. -/
theorem getKey_savedDoc (clk : Clock) (n : Nat) (r : Doc) (k : String)
    (h1 : k ≠ "created_at") (h2 : k ≠ "updated_at") (h3 : k ≠ "_id") :
    getKey (setKey (setKey (setKey r "created_at" (.dt clk.instant))
        "updated_at" (.dt clk.instant)) "_id" (.oid (hexStr24 n))) k = getKey r k := by
  rw [getKey_setKey_ne _ _ _ _ (Ne.symm h3), getKey_setKey_ne _ _ _ _ (Ne.symm h2),
      getKey_setKey_ne _ _ _ _ (Ne.symm h1)]

theorem process_reminders_store (clk : Clock) (st : Store) (rs : List Doc) (uid : String) :
    (process_reminders clk st rs uid).1 = (procLoop clk uid rs st).1 := by
  unfold process_reminders
  rcases h : procLoop clk uid rs st with ⟨st1, res, errs⟩
  by_cases he : res.isEmpty <;> simp [h, he]

theorem arrayStage_some (clk : Clock) (st : Store) (content uid : String)
    (r : Store × Nat × BVal) (h : arrayStage clk st content uid = some r) :
    ∃ elems2, r = process_reminders clk st elems2 uid := by
  unfold arrayStage at h
  repeat' split at h
  all_goals first
    | exact Option.noConfusion h
    | exact ⟨_, (Option.some.inj h).symm⟩

/-- Every document appended by the `process_reminders` loop carries the
validated user, a truthy title and date, and a store-assigned id. -/
theorem procLoop_new_docs (clk : Clock) (uid : String) (hu : uid ≠ "")
    (hdate : clk.dateStr ≠ "") (rs : List Doc) :
    ∀ st : Store, ∃ new,
      (procLoop clk uid rs st).1.docs = st.docs ++ new ∧
      ∀ d ∈ new,
        (∃ v, getKey d "userId" = some v ∧ truthy v = true) ∧
        (∃ v, getKey d "title" = some v ∧ truthy v = true) ∧
        (∃ v, getKey d "date" = some v ∧ truthy v = true) ∧
        (∃ s, getKey d "_id" = some (.oid s)) := by
  induction rs with
  | nil => exact fun st => ⟨[], by simp [procLoop], by simp⟩
  | cons reminder rest ih =>
    intro st
    by_cases hfail : st.nextId ∈ st.failSet
    · have herr := save_err_spec clk st
        [("userId", .str uid),
         ("title", getOrElse reminder "title" (.str "New Reminder")),
         ("date", getOrElse reminder "date" (.str clk.dateStr)),
         ("time", getOrElse reminder "time" (.str ""))] hfail
      obtain ⟨new, hdocs, hprop⟩ := ih st
      rcases hrec : procLoop clk uid rest st with ⟨st2, res, errs⟩
      rw [hrec] at hdocs
      refine ⟨new, ?_, hprop⟩
      simp only [procLoop, herr, hrec]
      exact hdocs
    · have hs := save_ok_spec clk st
        [("userId", .str uid),
         ("title", getOrElse reminder "title" (.str "New Reminder")),
         ("date", getOrElse reminder "date" (.str clk.dateStr)),
         ("time", getOrElse reminder "time" (.str ""))] hfail (by simp [getKey])
      obtain ⟨new, hdocs, hprop⟩ := ih
        ⟨st.docs ++ [setKey (setKey (setKey
            [("userId", .str uid),
             ("title", getOrElse reminder "title" (.str "New Reminder")),
             ("date", getOrElse reminder "date" (.str clk.dateStr)),
             ("time", getOrElse reminder "time" (.str ""))]
            "created_at" (.dt clk.instant)) "updated_at" (.dt clk.instant)) "_id"
            (.oid (hexStr24 st.nextId))],
         st.nextId + 1, st.failSet⟩
      rcases hrec : procLoop clk uid rest
        ⟨st.docs ++ [setKey (setKey (setKey
            [("userId", .str uid),
             ("title", getOrElse reminder "title" (.str "New Reminder")),
             ("date", getOrElse reminder "date" (.str clk.dateStr)),
             ("time", getOrElse reminder "time" (.str ""))]
            "created_at" (.dt clk.instant)) "updated_at" (.dt clk.instant)) "_id"
            (.oid (hexStr24 st.nextId))],
         st.nextId + 1, st.failSet⟩ with ⟨st2, res, errs⟩
      rw [hrec] at hdocs
      refine ⟨setKey (setKey (setKey
            [("userId", .str uid),
             ("title", getOrElse reminder "title" (.str "New Reminder")),
             ("date", getOrElse reminder "date" (.str clk.dateStr)),
             ("time", getOrElse reminder "time" (.str ""))]
            "created_at" (.dt clk.instant)) "updated_at" (.dt clk.instant)) "_id"
            (.oid (hexStr24 st.nextId)) :: new, ?_, ?_⟩
      · simp only [procLoop, hs, hrec]
        simp at hdocs ⊢
        exact hdocs
      · intro d hd
        rcases List.mem_cons.mp hd with hd | hd
        · subst hd
          refine ⟨⟨.str uid, ?_, by simp [truthy, hu]⟩,
                  ⟨getOrElse reminder "title" (.str "New Reminder"), ?_,
                   truthy_getOrElse _ _ _ (by decide)⟩,
                  ⟨getOrElse reminder "date" (.str clk.dateStr), ?_,
                   truthy_getOrElse _ _ _ (by simp [truthy, hdate])⟩,
                  ⟨hexStr24 st.nextId, getKey_setKey_self _ _ _⟩⟩
          · rw [getKey_savedDoc clk st.nextId _ _ (by decide) (by decide) (by decide)]
            simp [getKey]
          · rw [getKey_savedDoc clk st.nextId _ _ (by decide) (by decide) (by decide)]
            simp [getKey]
          · rw [getKey_savedDoc clk st.nextId _ _ (by decide) (by decide) (by decide)]
            simp [getKey]
        · exact hprop d hd

/-- Every document appended by the single-object path carries the
validated user, a truthy title and date, and a store-assigned id. -/
theorem objectStage_new_docs (clk : Clock) (st : Store) (content uid : String)
    (hu : uid ≠ "") (hdate : clk.dateStr ≠ "") :
    ∃ new,
      (objectStage clk st content uid).1.docs = st.docs ++ new ∧
      ∀ d ∈ new,
        (∃ v, getKey d "userId" = some v ∧ truthy v = true) ∧
        (∃ v, getKey d "title" = some v ∧ truthy v = true) ∧
        (∃ v, getKey d "date" = some v ∧ truthy v = true) ∧
        (∃ s, getKey d "_id" = some (.oid s)) := by
  unfold objectStage
  rcases hc : extractObjectCandidate content.data with _ | cap
  · exact ⟨[], by simp, by simp⟩
  rcases hp : pyjson_loads cap with _ | v
  · exact ⟨[], by simp [hp], by simp⟩
  cases v with
  | null => exact ⟨[], by simp [hp], by simp⟩
  | bool b => exact ⟨[], by simp [hp], by simp⟩
  | num n => exact ⟨[], by simp [hp], by simp⟩
  | str s => exact ⟨[], by simp [hp], by simp⟩
  | arr elems => exact ⟨[], by simp [hp], by simp⟩
  | oid o => exact ⟨[], by simp [hp], by simp⟩
  | dt t => exact ⟨[], by simp [hp], by simp⟩
  | obj fields =>
  by_cases hfail : st.nextId ∈ st.failSet
  · have herr := save_err_spec clk st
      [("userId", .str uid),
       ("title", getOrElse fields "title" (.str "New Reminder")),
       ("date", getOrElse fields "date" (.str clk.dateStr)),
       ("time", getOrElse fields "time" (.str ""))] hfail
    exact ⟨[], by simp [hp, herr], by simp⟩
  · have hs := save_ok_spec clk st
      [("userId", .str uid),
       ("title", getOrElse fields "title" (.str "New Reminder")),
       ("date", getOrElse fields "date" (.str clk.dateStr)),
       ("time", getOrElse fields "time" (.str ""))] hfail (by simp [getKey])
    refine ⟨[setKey (setKey (setKey
        [("userId", .str uid),
         ("title", getOrElse fields "title" (.str "New Reminder")),
         ("date", getOrElse fields "date" (.str clk.dateStr)),
         ("time", getOrElse fields "time" (.str ""))]
        "created_at" (.dt clk.instant)) "updated_at" (.dt clk.instant)) "_id"
        (.oid (hexStr24 st.nextId))], by simp [hp, hs], ?_⟩
    intro d hd
    rcases List.mem_singleton.mp hd with hd
    subst hd
    refine ⟨⟨.str uid, ?_, by simp [truthy, hu]⟩,
            ⟨getOrElse fields "title" (.str "New Reminder"), ?_,
             truthy_getOrElse _ _ _ (by decide)⟩,
            ⟨getOrElse fields "date" (.str clk.dateStr), ?_,
             truthy_getOrElse _ _ _ (by simp [truthy, hdate])⟩,
            ⟨hexStr24 st.nextId, getKey_setKey_self _ _ _⟩⟩
    · rw [getKey_savedDoc clk st.nextId _ _ (by decide) (by decide) (by decide)]
      simp [getKey]
    · rw [getKey_savedDoc clk st.nextId _ _ (by decide) (by decide) (by decide)]
      simp [getKey]
    · rw [getKey_savedDoc clk st.nextId _ _ (by decide) (by decide) (by decide)]
      simp [getKey]

/-! ### C1: the persisted-record invariant -/

/-- Counterexample to C1 as stated: the raw-save path of
`/reminder-data` persists the body as-is, so a body without `userId`
is stored as a document with no `userId` at all (and likewise no
title or date). -/
theorem claim_C1_counterexample :
    (save_reminder_data ⟨7, "2026-01-01"⟩ ⟨[], 0, []⟩
        (some (.obj [("note", .str "x")]))).1.docs
      = [[("note", .str "x"), ("created_at", .dt 7), ("updated_at", .dt 7),
          ("_id", .oid "000000000000000000000000")]] ∧
    getKey [("note", .str "x"), ("created_at", .dt 7), ("updated_at", .dt 7),
            ("_id", .oid "000000000000000000000000")] "userId" = none :=
  ⟨rfl, rfl⟩

/-- C1 as amended: every record persisted through the
`/format-reminder` extraction paths (array or single object) has a
truthy — in particular non-null — `userId`, `title` and `date`, and a
store-assigned ObjectId `_id`; the `/reminder-data` raw-save path
persists the request body as-is and guarantees none of this. -/
theorem claim_C1 (clk : Clock) (st : Store) (content uid : String)
    (hu : uid ≠ "") (hdate : clk.dateStr ≠ "") :
    ∃ new, (format_reminder clk st content uid).1.docs = st.docs ++ new ∧
      ∀ d ∈ new,
        (∃ v, getKey d "userId" = some v ∧ truthy v = true) ∧
        (∃ v, getKey d "title" = some v ∧ truthy v = true) ∧
        (∃ v, getKey d "date" = some v ∧ truthy v = true) ∧
        (∃ s, getKey d "_id" = some (.oid s)) := by
  unfold format_reminder
  rcases ha : arrayStage clk st content uid with _ | r
  · exact objectStage_new_docs clk st content uid hu hdate
  · obtain ⟨elems2, hr⟩ := arrayStage_some clk st content uid r ha
    subst hr
    obtain ⟨new, hdocs, hprop⟩ := procLoop_new_docs clk uid hu hdate elems2 st
    exact ⟨new, by rw [process_reminders_store]; exact hdocs, hprop⟩

/-- Witness for the amended C1 on a concrete request that persists one
record through the single-object path. -/
theorem claim_C1_witness :
    ∃ new,
      (format_reminder ⟨7, "2026-10-12"⟩ ⟨[], 0, []⟩ "ok: " "u1").1.docs = [] ++ new ∧
      ∀ d ∈ new,
        (∃ v, getKey d "userId" = some v ∧ truthy v = true) ∧
        (∃ v, getKey d "title" = some v ∧ truthy v = true) ∧
        (∃ v, getKey d "date" = some v ∧ truthy v = true) ∧
        (∃ s, getKey d "_id" = some (.oid s)) :=
  claim_C1 ⟨7, "2026-10-12"⟩ ⟨[], 0, []⟩ "ok: " "u1" (by decide) (by decide)

/-! ### C2: batch persistence semantics -/

/-- Every input record of the `process_reminders` loop is accounted
for: it lands either in the success list or in the error list, so a
failure never aborts the processing of sibling records. -/
theorem procLoop_counts (clk : Clock) (uid : String) (rs : List Doc) :
    ∀ st, (procLoop clk uid rs st).2.1.length + (procLoop clk uid rs st).2.2.length
      = rs.length := by
  induction rs with
  | nil => intro st; simp [procLoop]
  | cons reminder rest ih =>
    intro st
    rcases hs : save_to_mongodb clk st
      [("userId", .str uid),
       ("title", getOrElse reminder "title" (.str "New Reminder")),
       ("date", getOrElse reminder "date" (.str clk.dateStr)),
       ("time", getOrElse reminder "time" (.str ""))] with e | p
    · rcases hrec : procLoop clk uid rest st with ⟨st2, res, errs⟩
      have hlen := ih st
      rw [hrec] at hlen
      simp only [procLoop, hs, hrec]
      simp at hlen ⊢
      omega
    · obtain ⟨st1, saved⟩ := p
      rcases hrec : procLoop clk uid rest st1 with ⟨st2, res, errs⟩
      have hlen := ih st1
      rw [hrec] at hlen
      simp only [procLoop, hs, hrec]
      simp at hlen ⊢
      omega

/-- Once the `/reminder-data` list loop hits a failing record, any
records appended after the failing one are never processed: the
outcome is the same store and error. -/
theorem saveListLoop_append_error (clk : Clock) (l : List BVal) :
    ∀ (st st1 : Store) (e : String), saveListLoop clk l st = (st1, .error e) →
    ∀ l2, saveListLoop clk (l ++ l2) st = (st1, .error e) := by
  induction l with
  | nil =>
    intro st st1 e h l2
    exact absurd h (by simp [saveListLoop])
  | cons v rest ih =>
    intro st st1 e h l2
    cases v with
    | obj fields =>
      rcases hs : save_to_mongodb clk st fields with e' | p
      · simp only [saveListLoop, hs] at h ⊢
        exact h
      · obtain ⟨stA, saved⟩ := p
        simp only [saveListLoop, hs] at h ⊢
        rcases hrec : saveListLoop clk rest stA with ⟨stB, res⟩
        rw [hrec] at h
        cases res with
        | ok lres => simp at h
        | error e2 =>
          have hih := ih stA stB e2 hrec l2
          rw [show (rest ++ l2) = rest.append l2 from rfl] at hih
          rw [hih]
          exact h
    | null => exact h
    | bool b => exact h
    | num n => exact h
    | str s => exact h
    | arr elems => exact h
    | oid o => exact h
    | dt t => exact h

/-- Counterexample to C2 as stated: a `/reminder-data` batch of three
records whose second member raises while being saved answers 500 with
only the first record persisted — the failure is not converted to an
error string, and the third record is never processed. -/
theorem claim_C2_counterexample :
    (save_reminder_data ⟨7, "2026-01-01"⟩ ⟨[], 0, []⟩
        (some (.arr [.obj [("title", .str "a")], .num 5,
                     .obj [("title", .str "c")]]))).2.1 = 500 ∧
    (save_reminder_data ⟨7, "2026-01-01"⟩ ⟨[], 0, []⟩
        (some (.arr [.obj [("title", .str "a")], .num 5,
                     .obj [("title", .str "c")]]))).1.docs.length = 1 :=
  ⟨rfl, rfl⟩

/-- C2 as amended: per-record isolation holds only for the
`/format-reminder` array path — its loop accounts for every record as
either a success or an error string and, when at least one record was
saved, answers with both the success list and the error list; the
`/reminder-data` list path instead aborts on its first failing record
with a 500 response carrying the stringified exception, keeping the
documents already inserted and never processing the remaining
records. -/
theorem claim_C2 :
    (∀ (clk : Clock) (st : Store) (rs : List Doc) (uid : String),
      (procLoop clk uid rs st).2.1.length + (procLoop clk uid rs st).2.2.length
          = rs.length ∧
      ((procLoop clk uid rs st).2.1 ≠ [] →
        process_reminders clk st rs uid =
          ((procLoop clk uid rs st).1, 200,
           .obj [("success", .bool true),
                 ("reminders", .arr ((procLoop clk uid rs st).2.1.map .obj)),
                 ("count", .num (procLoop clk uid rs st).2.1.length),
                 ("errors", if (procLoop clk uid rs st).2.2.isEmpty then .null
                            else .arr ((procLoop clk uid rs st).2.2.map .str))]))) ∧
    (∀ (clk : Clock) (st st1 : Store) (l l2 : List BVal) (e : String),
      saveListLoop clk l st = (st1, .error e) →
      save_reminder_data clk st (some (.arr (l ++ l2))) = (st1, 500, saveFailBody e)) := by
  constructor
  · intro clk st rs uid
    refine ⟨procLoop_counts clk uid rs st, ?_⟩
    intro hne
    unfold process_reminders
    rcases h : procLoop clk uid rs st with ⟨st1, res, errs⟩
    rw [h] at hne
    cases res with
    | nil => simp at hne
    | cons a res2 => simp
  · intro clk st st1 l l2 e h
    have hl : l ≠ [] := by
      rintro rfl
      simp [saveListLoop] at h
    have happ := saveListLoop_append_error clk l st st1 e h l2
    have htr : truthy (.arr (l ++ l2)) = true := by
      cases l with
      | nil => exact absurd rfl hl
      | cons a l' => simp [truthy]
    unfold save_reminder_data
    simp [htr, happ]

/-- Witness for the amended C2: a two-record array batch whose first
save fails still processes the second (one success, one error), while
a `/reminder-data` list whose first member raises aborts before its
sibling is saved. -/
theorem claim_C2_witness :
    ((procLoop ⟨7, "2026-01-01"⟩ "u" [[("title", .str "a")], [("title", .str "b")]]
        ⟨[], 0, [0]⟩).2.1.length +
     (procLoop ⟨7, "2026-01-01"⟩ "u" [[("title", .str "a")], [("title", .str "b")]]
        ⟨[], 0, [0]⟩).2.2.length = 2) ∧
    save_reminder_data ⟨7, "2026-01-01"⟩ ⟨[], 0, []⟩
        (some (.arr ([.num 5] ++ [.obj [("title", .str "c")]])))
      = (⟨[], 0, []⟩, 500, saveFailBody "AttributeError") :=
  ⟨(claim_C2.1 ⟨7, "2026-01-01"⟩ ⟨[], 0, [0]⟩
      [[("title", .str "a")], [("title", .str "b")]] "u").1,
   claim_C2.2 ⟨7, "2026-01-01"⟩ ⟨[], 0, []⟩ ⟨[], 0, []⟩
      [.num 5] [.obj [("title", .str "c")]] "AttributeError" rfl⟩

/-! ### C4: the defaulting policy -/

theorem getOrElse_none (d : Doc) (k : String) (dflt : BVal)
    (h : getKey d k = none) : getOrElse d k dflt = dflt := by
  simp [getOrElse, h]

theorem getOrElse_some_truthy (d : Doc) (k : String) (dflt v : BVal)
    (h : getKey d k = some v) (hv : truthy v = true) : getOrElse d k dflt = v := by
  simp [getOrElse, h, hv]

theorem getOrElse_some_falsy (d : Doc) (k : String) (dflt v : BVal)
    (h : getKey d k = some v) (hv : truthy v = false) : getOrElse d k dflt = dflt := by
  simp [getOrElse, h, hv]

theorem defaultElem_getKey_title (clk : Clock) (f : Doc) :
    getKey (defaultElem clk f) "title"
      = if truthy ((getKey f "title").getD .null) then getKey f "title"
        else some (.str "New Reminder") := by
  simp only [defaultElem]
  have hne : getKey (setKey f "date" (.str clk.dateStr)) "title" = getKey f "title" :=
    getKey_setKey_ne _ _ _ _ (by decide)
  by_cases hd : truthy ((getKey f "date").getD .null) = true
  · rw [if_pos hd]
    by_cases ht : truthy ((getKey f "title").getD .null) = true
    · rw [if_pos ht, if_pos ht]
    · rw [if_neg ht, if_neg ht, getKey_setKey_self]
  · rw [if_neg hd, hne]
    by_cases ht : truthy ((getKey f "title").getD .null) = true
    · rw [if_pos ht, if_pos ht, hne]
    · rw [if_neg ht, if_neg ht, getKey_setKey_self]

theorem defaultElem_getKey_date (clk : Clock) (f : Doc) :
    getKey (defaultElem clk f) "date"
      = if truthy ((getKey f "date").getD .null) then getKey f "date"
        else some (.str clk.dateStr) := by
  simp only [defaultElem]
  have hne : getKey (setKey f "date" (.str clk.dateStr)) "title" = getKey f "title" :=
    getKey_setKey_ne _ _ _ _ (by decide)
  by_cases hd : truthy ((getKey f "date").getD .null) = true
  · rw [if_pos hd]
    by_cases ht : truthy ((getKey f "title").getD .null) = true
    · rw [if_pos ht, if_pos hd]
    · rw [if_neg ht, getKey_setKey_ne _ _ _ _ (by decide), if_pos hd]
  · rw [if_neg hd, hne]
    by_cases ht : truthy ((getKey f "title").getD .null) = true
    · rw [if_pos ht, getKey_setKey_self, if_neg hd]
    · rw [if_neg ht, getKey_setKey_ne _ _ _ _ (by decide), getKey_setKey_self, if_neg hd]

theorem defaultElem_getKey_time (clk : Clock) (f : Doc) :
    getKey (defaultElem clk f) "time" = getKey f "time" := by
  simp only [defaultElem]
  have hneT : getKey (setKey f "date" (.str clk.dateStr)) "title" = getKey f "title" :=
    getKey_setKey_ne _ _ _ _ (by decide)
  have hne : getKey (setKey f "date" (.str clk.dateStr)) "time" = getKey f "time" :=
    getKey_setKey_ne _ _ _ _ (by decide)
  by_cases hd : truthy ((getKey f "date").getD .null) = true
  · rw [if_pos hd]
    by_cases ht : truthy ((getKey f "title").getD .null) = true
    · rw [if_pos ht]
    · rw [if_neg ht, getKey_setKey_ne _ _ _ _ (by decide)]
  · rw [if_neg hd, hneT]
    by_cases ht : truthy ((getKey f "title").getD .null) = true
    · rw [if_pos ht, hne]
    · rw [if_neg ht, getKey_setKey_ne _ _ _ _ (by decide), hne]

/-- A document whose title, date and time are the single-object path's
`x or default` values satisfies the claimed defaulting policy. -/
theorem defaultingSpec_single (clk : Clock) (fields d : Doc)
    (ht : getKey d "title" = some (getOrElse fields "title" (.str "New Reminder")))
    (hd : getKey d "date" = some (getOrElse fields "date" (.str clk.dateStr)))
    (htm : getKey d "time" = some (getOrElse fields "time" (.str ""))) :
    DefaultingSpec clk fields d := by
  refine ⟨?_, ?_, ?_, ?_, ?_, ?_⟩
  · rintro (h | h)
    · rw [ht, getOrElse_none _ _ _ h]
    · rw [ht, getOrElse_some_falsy _ _ _ _ h (by simp [truthy])]
  · intro v hv h
    rw [ht, getOrElse_some_truthy _ _ _ _ h hv]
  · rintro (h | h)
    · rw [hd, getOrElse_none _ _ _ h]
    · rw [hd, getOrElse_some_falsy _ _ _ _ h (by simp [truthy])]
  · intro v hv h
    rw [hd, getOrElse_some_truthy _ _ _ _ h hv]
  · rintro (h | h)
    · rw [htm, getOrElse_none _ _ _ h]
    · rw [htm, getOrElse_some_falsy _ _ _ _ h (by simp [truthy])]
  · intro v hv h
    rw [htm, getOrElse_some_truthy _ _ _ _ h hv]

/-- A document whose title, date and time are the array path's values
(element-level defaulting followed by the loop's `x or default`)
satisfies the claimed defaulting policy. -/
theorem defaultingSpec_array (clk : Clock) (f d : Doc)
    (ht : getKey d "title" = some (getOrElse (defaultElem clk f) "title" (.str "New Reminder")))
    (hd : getKey d "date" = some (getOrElse (defaultElem clk f) "date" (.str clk.dateStr)))
    (htm : getKey d "time" = some (getOrElse (defaultElem clk f) "time" (.str ""))) :
    DefaultingSpec clk f d := by
  refine ⟨?_, ?_, ?_, ?_, ?_, ?_⟩
  · rintro (h | h)
    all_goals {
      have h1 : getKey (defaultElem clk f) "title" = some (.str "New Reminder") := by
        rw [defaultElem_getKey_title]
        simp [h, truthy]
      rw [ht, getOrElse_some_truthy _ _ _ _ h1 (by simp [truthy])] }
  · intro v hv h
    have h1 : getKey (defaultElem clk f) "title" = some v := by
      rw [defaultElem_getKey_title]
      simp [h, hv]
    rw [ht, getOrElse_some_truthy _ _ _ _ h1 hv]
  · rintro (h | h)
    all_goals {
      have h1 : getKey (defaultElem clk f) "date" = some (.str clk.dateStr) := by
        rw [defaultElem_getKey_date]
        simp [h, truthy]
      by_cases hds : truthy (.str clk.dateStr) = true
      · rw [hd, getOrElse_some_truthy _ _ _ _ h1 hds]
      · rw [hd, getOrElse_some_falsy _ _ _ _ h1 (by simpa using hds)] }
  · intro v hv h
    have h1 : getKey (defaultElem clk f) "date" = some v := by
      rw [defaultElem_getKey_date]
      simp [h, hv]
    rw [hd, getOrElse_some_truthy _ _ _ _ h1 hv]
  · rintro (h | h)
    · rw [htm, getOrElse_none _ _ _ (by rw [defaultElem_getKey_time, h])]
    · rw [htm, getOrElse_some_falsy _ _ _ _ (by rw [defaultElem_getKey_time, h])
          (by simp [truthy])]
  · intro v hv h
    rw [htm, getOrElse_some_truthy _ _ _ _ (by rw [defaultElem_getKey_time, h]) hv]

/-- Element-level defaulting succeeds on a list of dicts, producing the
defaulted elements in order. -/
theorem defaultArrayElems_map_obj (clk : Clock) (fs : List Doc) :
    defaultArrayElems clk (fs.map .obj) = some (fs.map (defaultElem clk)) := by
  induction fs with
  | nil => rfl
  | cons f rest ih => simp [defaultArrayElems, ih]

/-- Through the `process_reminders` loop, each defaulted element is
persisted as a document satisfying the claimed defaulting policy with
respect to its original record. -/
theorem procLoop_defaulting (clk : Clock) (uid : String) (fs : List Doc) :
    ∀ st : Store, st.failSet = [] →
    ∃ ds, (procLoop clk uid (fs.map (defaultElem clk)) st).1.docs = st.docs ++ ds ∧
      List.Forall₂ (DefaultingSpec clk) fs ds := by
  induction fs with
  | nil =>
    intro st hfs
    exact ⟨[], by simp [procLoop], List.Forall₂.nil⟩
  | cons f rest ih =>
    intro st hfs
    have hfail : st.nextId ∉ st.failSet := by rw [hfs]; simp
    have hs := save_ok_spec clk st
      [("userId", .str uid),
       ("title", getOrElse (defaultElem clk f) "title" (.str "New Reminder")),
       ("date", getOrElse (defaultElem clk f) "date" (.str clk.dateStr)),
       ("time", getOrElse (defaultElem clk f) "time" (.str ""))] hfail (by simp [getKey])
    obtain ⟨ds, hdocs, hforall⟩ := ih
      ⟨st.docs ++ [setKey (setKey (setKey
          [("userId", .str uid),
           ("title", getOrElse (defaultElem clk f) "title" (.str "New Reminder")),
           ("date", getOrElse (defaultElem clk f) "date" (.str clk.dateStr)),
           ("time", getOrElse (defaultElem clk f) "time" (.str ""))]
          "created_at" (.dt clk.instant)) "updated_at" (.dt clk.instant)) "_id"
          (.oid (hexStr24 st.nextId))],
       st.nextId + 1, st.failSet⟩ hfs
    rcases hrec : procLoop clk uid (rest.map (defaultElem clk))
      ⟨st.docs ++ [setKey (setKey (setKey
          [("userId", .str uid),
           ("title", getOrElse (defaultElem clk f) "title" (.str "New Reminder")),
           ("date", getOrElse (defaultElem clk f) "date" (.str clk.dateStr)),
           ("time", getOrElse (defaultElem clk f) "time" (.str ""))]
          "created_at" (.dt clk.instant)) "updated_at" (.dt clk.instant)) "_id"
          (.oid (hexStr24 st.nextId))],
       st.nextId + 1, st.failSet⟩ with ⟨st2, res, errs⟩
    rw [hrec] at hdocs
    refine ⟨setKey (setKey (setKey
        [("userId", .str uid),
         ("title", getOrElse (defaultElem clk f) "title" (.str "New Reminder")),
         ("date", getOrElse (defaultElem clk f) "date" (.str clk.dateStr)),
         ("time", getOrElse (defaultElem clk f) "time" (.str ""))]
        "created_at" (.dt clk.instant)) "updated_at" (.dt clk.instant)) "_id"
        (.oid (hexStr24 st.nextId)) :: ds, ?_, ?_⟩
    · simp only [List.map_cons, procLoop, hs, hrec]
      simp at hdocs ⊢
      exact hdocs
    · refine List.Forall₂.cons (defaultingSpec_array clk f _ ?_ ?_ ?_) hforall
      · rw [getKey_savedDoc clk st.nextId _ _ (by decide) (by decide) (by decide)]
        simp [getKey]
      · rw [getKey_savedDoc clk st.nextId _ _ (by decide) (by decide) (by decide)]
        simp [getKey]
      · rw [getKey_savedDoc clk st.nextId _ _ (by decide) (by decide) (by decide)]
        simp [getKey]

/-- C4: for every record extracted from LLM output in
`/format-reminder` — the array path (second conjunct) and the
single-object path (first conjunct) — the persisted record's fields
follow the defaulting policy: missing/empty title becomes
`"New Reminder"`, missing/empty date becomes the current local date
string, missing/empty time becomes the empty string, and present
truthy fields are kept unchanged. -/
theorem claim_C4 :
    (∀ (clk : Clock) (st : Store) (content uid : String) (cap : List Char)
       (fields : Doc),
      arrayStage clk st content uid = none →
      extractObjectCandidate content.data = some cap →
      pyjson_loads cap = some (.obj fields) →
      st.nextId ∉ st.failSet →
      ∃ d, (format_reminder clk st content uid).1.docs = st.docs ++ [d] ∧
        DefaultingSpec clk fields d) ∧
    (∀ (clk : Clock) (st : Store) (content uid : String) (cap : List Char)
       (fs : List Doc),
      extractArrayCandidate content.data = some cap →
      pyjson_loads cap = some (.arr (fs.map .obj)) →
      fs ≠ [] →
      st.failSet = [] →
      ∃ ds, (format_reminder clk st content uid).1.docs = st.docs ++ ds ∧
        List.Forall₂ (DefaultingSpec clk) fs ds) := by
  constructor
  · intro clk st content uid cap fields harr hcap hparse hfail
    have hs := save_ok_spec clk st
      [("userId", .str uid),
       ("title", getOrElse fields "title" (.str "New Reminder")),
       ("date", getOrElse fields "date" (.str clk.dateStr)),
       ("time", getOrElse fields "time" (.str ""))] hfail (by simp [getKey])
    refine ⟨setKey (setKey (setKey
        [("userId", .str uid),
         ("title", getOrElse fields "title" (.str "New Reminder")),
         ("date", getOrElse fields "date" (.str clk.dateStr)),
         ("time", getOrElse fields "time" (.str ""))]
        "created_at" (.dt clk.instant)) "updated_at" (.dt clk.instant)) "_id"
        (.oid (hexStr24 st.nextId)), ?_, defaultingSpec_single clk fields _ ?_ ?_ ?_⟩
    · unfold format_reminder
      rw [harr]
      unfold objectStage
      simp [hcap, hparse, hs]
    · rw [getKey_savedDoc clk st.nextId _ _ (by decide) (by decide) (by decide)]
      simp [getKey]
    · rw [getKey_savedDoc clk st.nextId _ _ (by decide) (by decide) (by decide)]
      simp [getKey]
    · rw [getKey_savedDoc clk st.nextId _ _ (by decide) (by decide) (by decide)]
      simp [getKey]
  · intro clk st content uid cap fs hcap hparse hne hfs
    have hlen : 0 < (fs.map BVal.obj).length := by
      cases fs with
      | nil => exact absurd rfl hne
      | cons a l => simp
    have harr : arrayStage clk st content uid =
        some (process_reminders clk st (fs.map (defaultElem clk)) uid) := by
      unfold arrayStage
      simp [hcap, hparse, hlen, hne, defaultArrayElems_map_obj]
    obtain ⟨ds, hdocs, hforall⟩ := procLoop_defaulting clk uid fs st hfs
    refine ⟨ds, ?_, hforall⟩
    unfold format_reminder
    rw [harr, process_reminders_store]
    exact hdocs

/-- Witness for C4: a single-object request whose title is empty and
whose time is present, and an array request with one record missing a
title and time. -/
theorem claim_C4_witness :
    (∃ d, (format_reminder ⟨7, "2026-10-12"⟩ ⟨[], 0, []⟩
        "x: \x7b\"title\": \"\", \"time\": \"09:00\"\x7d" "u1").1.docs = [] ++ [d] ∧
      DefaultingSpec ⟨7, "2026-10-12"⟩
        [("title", .str ""), ("time", .str "09:00")] d) ∧
    (∃ ds, (format_reminder ⟨7, "2026-10-12"⟩ ⟨[], 0, []⟩
        "[\x7b\"date\": \"2026-01-02\"\x7d]" "u1").1.docs = [] ++ ds ∧
      List.Forall₂ (DefaultingSpec ⟨7, "2026-10-12"⟩)
        [[("date", .str "2026-01-02")]] ds) :=
  ⟨claim_C4.1 ⟨7, "2026-10-12"⟩ ⟨[], 0, []⟩
      "x: \x7b\"title\": \"\", \"time\": \"09:00\"\x7d" "u1"
      (String.data "\x7b\"title\": \"\", \"time\": \"09:00\"\x7d")
      [("title", .str ""), ("time", .str "09:00")]
      rfl rfl rfl (by simp),
   claim_C4.2 ⟨7, "2026-10-12"⟩ ⟨[], 0, []⟩
      "[\x7b\"date\": \"2026-01-02\"\x7d]" "u1"
      (String.data "[\x7b\"date\": \"2026-01-02\"\x7d]")
      [[("date", .str "2026-01-02")]]
      rfl rfl (by simp) rfl⟩

/-! ### C3: fenced-over-bare preference of array extraction -/

/-- Counterexample to C3 as stated: in an LLM output holding a bare
array before a fenced `json` block, array extraction captures the bare
array, not the fenced block's content. -/
theorem claim_C3_counterexample :
    extractArrayCandidate "see [1,2] then ```json [3,4] ``` end".data
        = some ("[1,2]".data) ∧
    extractArrayCandidate "see [1,2] then ```json [3,4] ``` end".data
        ≠ some ("[3,4]".data) := by
  constructor
  · rfl
  · intro h
    rw [show extractArrayCandidate "see [1,2] then ```json [3,4] ``` end".data
          = some ("[1,2]".data) from rfl] at h
    simp at h

/-- C3 as amended: array extraction returns the capture whose
alternative matches at the earliest position of the text.  When the
opening fence of a well-formed fenced array block precedes every
backtick and every `[` of the text, the fenced content is captured;
when a bare array (up to its first `]`) starts before every backtick
and every other `[`, the bare match is captured — the fenced block is
preferred only at equal positions, not regardless of order. -/
theorem claim_C3 :
    (∀ (pre body rest : List Char),
      (∀ c ∈ pre, c ≠ tick ∧ c ≠ '[') →
      (∀ c ∈ body, c ≠ ']') →
      extractArrayCandidate
          (pre ++ (tick :: tick :: tick :: 'j' :: 's' :: 'o' :: 'n' :: Char.ofNat 10 ::
           '[' :: (body ++ (']' :: Char.ofNat 10 :: tick :: tick :: tick :: rest))))
        = some ('[' :: (body ++ [']']))) ∧
    (∀ (pre body rest : List Char),
      (∀ c ∈ pre, c ≠ tick ∧ c ≠ '[') →
      (∀ c ∈ body, c ≠ ']') →
      extractArrayCandidate (pre ++ ('[' :: (body ++ (']' :: rest))))
        = some ('[' :: (body ++ [']']))) := by
  constructor
  · intro pre body rest hpre hb
    unfold extractArrayCandidate
    rw [reSearchCap_append_skip _ _ pre _ (by
      intro c hc
      exact hpre c hc)]
    have hwsNl : isWS (Char.ofNat 10) = true := by decide
    have hwsTick : isWS tick = false := by decide
    have hwsBr : isWS '[' = false := by decide
    have hticks : ∀ r : List Char, startsTicks (tick :: tick :: tick :: r) = true := by
      intro r
      simp [startsTicks]
    have hfc : fencedCap '[' ']'
        (tick :: tick :: tick :: 'j' :: 's' :: 'o' :: 'n' :: Char.ofNat 10 ::
         '[' :: (body ++ (']' :: Char.ofNat 10 :: tick :: tick :: tick :: rest)))
        = some ('[' :: (body ++ [']'])) := by
      have hft : fenceClose ']'
          (body ++ (']' :: (Char.ofNat 10 :: tick :: tick :: tick :: rest)))
          = some body := by
        apply fenceClose_hit ']' body _ hb
        simp [List.dropWhile, hwsNl, hwsTick, hticks]
      unfold fencedCap
      simp [hticks, List.dropWhile, hwsNl, hwsBr, hft]
    rw [reSearchCap_cons, hfc]
  · intro pre body rest hpre hb
    unfold extractArrayCandidate
    rw [reSearchCap_append_skip _ _ pre _ (by
      intro c hc
      exact hpre c hc)]
    have hfc : fencedCap '[' ']' ('[' :: (body ++ (']' :: rest))) = none :=
      fencedCap_none_of_ne _ _ _ _ (by decide)
    have hbc : bareCap '[' ']' ('[' :: (body ++ (']' :: rest)))
        = some ('[' :: (body ++ [']'])) := by
      unfold bareCap
      simp [upToClose_hit ']' body rest hb]
    rw [reSearchCap_cons, hfc, hbc]

/-- Witness for the amended C3 at two concrete outputs: fence first
captures the fenced content, bare first captures the bare array. -/
theorem claim_C3_witness :
    extractArrayCandidate ("Result: ".data ++
        (tick :: tick :: tick :: 'j' :: 's' :: 'o' :: 'n' :: Char.ofNat 10 ::
         '[' :: ("3,4".data ++ (']' :: Char.ofNat 10 :: tick :: tick :: tick :: " end".data))))
        = some ('[' :: ("3,4".data ++ [']'])) ∧
    extractArrayCandidate ("see ".data ++ ('[' :: ("1,2".data ++ (']' :: " etc".data))))
        = some ('[' :: ("1,2".data ++ [']'])) :=
  ⟨claim_C3.1 "Result: ".data "3,4".data " end".data (by decide) (by decide),
   claim_C3.2 "see ".data "1,2".data " etc".data (by decide) (by decide)⟩

/-! ### C9: the save/fetch round trip -/

theorem toHexDigitsAux_length_le : ∀ (fuel n : Nat), (toHexDigitsAux fuel n).length ≤ fuel := by
  intro fuel
  induction fuel with
  | zero => intro n; simp [toHexDigitsAux]
  | succ f ih =>
    intro n
    unfold toHexDigitsAux
    by_cases h : n = 0
    · simp [h]
    · simp only [h, if_false, List.length_cons]
      exact Nat.succ_le_succ (ih (n / 16))

theorem isHexChar_hexChar (d : Nat) (hd : d < 16) : isHexChar (hexChar d) = true := by
  have hall : ∀ x : Fin 16, isHexChar (hexChar x.val) = true := by decide
  exact hall ⟨d, hd⟩

theorem toHexDigitsAux_hex : ∀ (fuel n : Nat), ∀ c ∈ toHexDigitsAux fuel n,
    isHexChar c = true := by
  intro fuel
  induction fuel with
  | zero => intro n c hc; simp [toHexDigitsAux] at hc
  | succ f ih =>
    intro n c hc
    unfold toHexDigitsAux at hc
    by_cases h : n = 0
    · simp [h] at hc
    · simp only [h, if_false, List.mem_cons] at hc
      rcases hc with hc | hc
      · subst hc
        exact isHexChar_hexChar _ (Nat.mod_lt _ (by omega))
      · exact ih (n / 16) c hc

/-- Every store-assigned identifier string is a syntactically valid
ObjectId. -/
theorem objectIdIsValid_hexStr24 (n : Nat) : objectIdIsValid (hexStr24 n) = true := by
  unfold objectIdIsValid hexStr24
  simp only [Bool.and_eq_true, decide_eq_true_eq, List.all_eq_true]
  have hlen : (toHexDigitsAux 24 (n % 16 ^ 24)).length ≤ 24 := toHexDigitsAux_length_le _ _
  constructor
  · show (List.replicate _ _ ++ _).length = 24
    rw [List.length_append, List.length_replicate, List.length_reverse]
    omega
  · intro c hc
    show isHexChar c = true
    rcases List.mem_append.mp hc with hc | hc
    · rw [List.eq_of_mem_replicate hc]
      decide
    · exact toHexDigitsAux_hex 24 _ c (List.mem_reverse.mp hc)

theorem setKey_ne_nil (d : Doc) (k : String) (v : BVal) : setKey d k v ≠ [] := by
  cases d with
  | nil => simp [setKey]
  | cons p rest =>
    obtain ⟨k', v'⟩ := p
    by_cases h : k' = k <;> simp [setKey, h]

theorem getKey_convDoc_none (d : Doc) (k : String) (h1 : k ≠ "_id") (h2 : k ≠ "id")
    (h : getKey d k = none) : getKey (convDoc d) k = none := by
  induction d with
  | nil => simp [convDoc, getKey]
  | cons p rest ih =>
    obtain ⟨k', v⟩ := p
    by_cases hk : k' = k
    · rw [getKey, if_pos hk] at h
      exact Option.noConfusion h
    · rw [getKey, if_neg hk] at h
      have hrec := ih h
      cases v with
      | oid s =>
        by_cases hid2 : k' = "_id"
        · simp [convDoc, getKey, hid2, Ne.symm h2, hrec]
        · simp [convDoc, getKey, hid2, hk, hrec]
      | null => simp [convDoc, getKey, hk, hrec]
      | bool b => simp [convDoc, getKey, hk, hrec]
      | num m => simp [convDoc, getKey, hk, hrec]
      | str s => simp [convDoc, getKey, hk, hrec]
      | arr xs => simp [convDoc, getKey, hk, hrec]
      | obj fs => simp [convDoc, getKey, hk, hrec]
      | dt t => simp [convDoc, getKey, hk, hrec]

theorem getKey_convDoc_str (d : Doc) (k : String) (h1 : k ≠ "_id") (h2 : k ≠ "id")
    (s : String) (h : getKey d k = some (.str s)) :
    getKey (convDoc d) k = some (.str s) := by
  induction d with
  | nil => simp [getKey] at h
  | cons p rest ih =>
    obtain ⟨k', v⟩ := p
    by_cases hk : k' = k
    · rw [getKey, if_pos hk] at h
      have hv : v = .str s := Option.some.inj h
      subst hv
      simp [convDoc, getKey, hk]
    · rw [getKey, if_neg hk] at h
      have hrec := ih h
      cases v with
      | oid s2 =>
        by_cases hid2 : k' = "_id"
        · simp [convDoc, getKey, hid2, Ne.symm h2, hrec]
        · simp [convDoc, getKey, hid2, hk, hrec]
      | null => simp [convDoc, getKey, hk, hrec]
      | bool b => simp [convDoc, getKey, hk, hrec]
      | num m => simp [convDoc, getKey, hk, hrec]
      | str s2 => simp [convDoc, getKey, hk, hrec]
      | arr xs => simp [convDoc, getKey, hk, hrec]
      | obj fs => simp [convDoc, getKey, hk, hrec]
      | dt t => simp [convDoc, getKey, hk, hrec]

/-- C9: a reminder object saved through `/reminder-data` and then
fetched through `GET /reminders/:id` with the returned id comes back
with the very `title`, `date`, `time` and `userId` that were saved. -/
theorem claim_C9 (clk : Clock) (st : Store) (fields : Doc)
    (hid : getKey fields "_id" = none)
    (hnonempty : fields ≠ [])
    (hfail : st.nextId ∉ st.failSet)
    (hfresh : ∀ d ∈ st.docs, ∀ v, getKey d "_id" = some v →
       v ≠ .oid (hexStr24 st.nextId))
    (hstr : ∀ k ∈ (["title", "date", "time", "userId"] : List String),
       ∀ v, getKey fields k = some v → ∃ s, v = .str s)
    (st1 : Store) (code : Nat) (body : BVal)
    (hsave : save_reminder_data clk st (some (.obj fields)) = (st1, code, body)) :
    code = 200 ∧
    ∃ rbody rid, bodyField body "reminder" = some (.obj rbody) ∧
      getKey rbody "id" = some (.str rid) ∧
      ∃ rdoc, get_reminder_by_id st1 rid
          = (200, .obj [("success", .bool true), ("reminder", .obj rdoc)]) ∧
        getKey rdoc "title" = getKey fields "title" ∧
        getKey rdoc "date" = getKey fields "date" ∧
        getKey rdoc "time" = getKey fields "time" ∧
        getKey rdoc "userId" = getKey fields "userId" := by
  have htr : truthy (.obj fields) = true := by
    cases fields with
    | nil => exact absurd rfl hnonempty
    | cons p l => simp [truthy]
  have hs := save_ok_spec clk st fields hfail hid
  unfold save_reminder_data at hsave
  simp only [htr, Bool.not_true, Bool.false_eq_true, if_false, hs] at hsave
  injection hsave with h1 h23
  injection h23 with h2 h3
  subst h1
  subst h2
  subst h3
  refine ⟨rfl, setKey (convDoc (setKey (setKey (setKey fields "created_at"
      (.dt clk.instant)) "updated_at" (.dt clk.instant)) "_id"
      (.oid (hexStr24 st.nextId)))) "id" (.str (hexStr24 st.nextId)),
    hexStr24 st.nextId, ?_, getKey_setKey_self _ _ _, ?_⟩
  · simp [bodyField, getKey]
  · have hD : getKey (setKey (setKey (setKey fields "created_at" (.dt clk.instant))
        "updated_at" (.dt clk.instant)) "_id" (.oid (hexStr24 st.nextId))) "_id"
        = some (.oid (hexStr24 st.nextId)) := getKey_setKey_self _ _ _
    have hfind : (st.docs ++ [setKey (setKey (setKey fields "created_at"
        (.dt clk.instant)) "updated_at" (.dt clk.instant)) "_id"
        (.oid (hexStr24 st.nextId))]).find? (fun d =>
          match getKey d "_id" with
          | some (.oid s) => s = hexStr24 st.nextId
          | _ => false)
        = some (setKey (setKey (setKey fields "created_at" (.dt clk.instant))
            "updated_at" (.dt clk.instant)) "_id" (.oid (hexStr24 st.nextId))) := by
      rw [List.find?_append]
      have hnone : st.docs.find? (fun d =>
          match getKey d "_id" with
          | some (.oid s) => s = hexStr24 st.nextId
          | _ => false) = none := by
        rw [List.find?_eq_none]
        intro d hd
        rcases hgd : getKey d "_id" with _ | v
        · simp [hgd]
        · cases v with
          | oid s =>
            have := hfresh d hd _ hgd
            simp [hgd]
            intro heq
            exact this (by rw [heq])
          | null => simp [hgd]
          | bool b => simp [hgd]
          | num m => simp [hgd]
          | str s2 => simp [hgd]
          | arr xs => simp [hgd]
          | obj fs => simp [hgd]
          | dt t => simp [hgd]
      rw [hnone]
      simp only [Option.none_or]
      apply List.find?_cons_of_pos
      simp [hD]
    have hvalid := objectIdIsValid_hexStr24 st.nextId
    have hne2 := setKey_ne_nil (setKey (setKey fields "created_at" (.dt clk.instant))
        "updated_at" (.dt clk.instant)) "_id" (.oid (hexStr24 st.nextId))
    refine ⟨convDoc (setKey (setKey (setKey fields "created_at" (.dt clk.instant))
        "updated_at" (.dt clk.instant)) "_id" (.oid (hexStr24 st.nextId))), ?_, ?_, ?_, ?_, ?_⟩
    · unfold get_reminder_by_id
      simp only [hvalid, if_true, hfind]
      have : (setKey (setKey (setKey fields "created_at" (.dt clk.instant))
          "updated_at" (.dt clk.instant)) "_id" (.oid (hexStr24 st.nextId))).isEmpty
          = false := by
        rw [List.isEmpty_eq_false_iff_exists_mem]
        rcases hl : setKey (setKey (setKey fields "created_at" (.dt clk.instant))
            "updated_at" (.dt clk.instant)) "_id" (.oid (hexStr24 st.nextId)) with _ | ⟨p, l⟩
        · exact absurd hl hne2
        · exact ⟨p, by simp⟩
      simp [this]
    · have hDk := getKey_savedDoc clk st.nextId fields "title"
        (by decide) (by decide) (by decide)
      rcases hv : getKey fields "title" with _ | v
      · rw [getKey_convDoc_none _ "title" (by decide) (by decide) (hDk.trans hv)]
      · obtain ⟨s, rfl⟩ := hstr "title" (by simp) v hv
        rw [getKey_convDoc_str _ "title" (by decide) (by decide) s (hDk.trans hv)]
    · have hDk := getKey_savedDoc clk st.nextId fields "date"
        (by decide) (by decide) (by decide)
      rcases hv : getKey fields "date" with _ | v
      · rw [getKey_convDoc_none _ "date" (by decide) (by decide) (hDk.trans hv)]
      · obtain ⟨s, rfl⟩ := hstr "date" (by simp) v hv
        rw [getKey_convDoc_str _ "date" (by decide) (by decide) s (hDk.trans hv)]
    · have hDk := getKey_savedDoc clk st.nextId fields "time"
        (by decide) (by decide) (by decide)
      rcases hv : getKey fields "time" with _ | v
      · rw [getKey_convDoc_none _ "time" (by decide) (by decide) (hDk.trans hv)]
      · obtain ⟨s, rfl⟩ := hstr "time" (by simp) v hv
        rw [getKey_convDoc_str _ "time" (by decide) (by decide) s (hDk.trans hv)]
    · have hDk := getKey_savedDoc clk st.nextId fields "userId"
        (by decide) (by decide) (by decide)
      rcases hv : getKey fields "userId" with _ | v
      · rw [getKey_convDoc_none _ "userId" (by decide) (by decide) (hDk.trans hv)]
      · obtain ⟨s, rfl⟩ := hstr "userId" (by simp) v hv
        rw [getKey_convDoc_str _ "userId" (by decide) (by decide) s (hDk.trans hv)]

/-- Witness for C9: a complete reminder object saved into an empty
store and fetched back. -/
theorem claim_C9_witness :
    (200 : Nat) = 200 ∧
    ∃ rbody rid, bodyField (save_reminder_data ⟨7, "2026-10-12"⟩ ⟨[], 0, []⟩
        (some (.obj [("title", .str "T"), ("date", .str "2026-01-02"),
                     ("time", .str "10:00"), ("userId", .str "u1")]))).2.2 "reminder"
        = some (.obj rbody) ∧
      getKey rbody "id" = some (.str rid) ∧
      ∃ rdoc, get_reminder_by_id (save_reminder_data ⟨7, "2026-10-12"⟩ ⟨[], 0, []⟩
          (some (.obj [("title", .str "T"), ("date", .str "2026-01-02"),
                       ("time", .str "10:00"), ("userId", .str "u1")]))).1 rid
          = (200, .obj [("success", .bool true), ("reminder", .obj rdoc)]) ∧
        getKey rdoc "title" = getKey [("title", .str "T"), ("date", .str "2026-01-02"),
            ("time", .str "10:00"), ("userId", .str "u1")] "title" ∧
        getKey rdoc "date" = getKey [("title", .str "T"), ("date", .str "2026-01-02"),
            ("time", .str "10:00"), ("userId", .str "u1")] "date" ∧
        getKey rdoc "time" = getKey [("title", .str "T"), ("date", .str "2026-01-02"),
            ("time", .str "10:00"), ("userId", .str "u1")] "time" ∧
        getKey rdoc "userId" = getKey [("title", .str "T"), ("date", .str "2026-01-02"),
            ("time", .str "10:00"), ("userId", .str "u1")] "userId" := by
  have h := claim_C9 ⟨7, "2026-10-12"⟩ ⟨[], 0, []⟩
    [("title", .str "T"), ("date", .str "2026-01-02"),
     ("time", .str "10:00"), ("userId", .str "u1")]
    rfl (by simp) (by simp) (by simp)
    (by
      intro k hk v hv
      fin_cases hk <;> exact ⟨_, Option.some.inj hv.symm⟩)
    _ _ _ rfl
  exact ⟨rfl, h.2⟩

/-! ### C10: the shape of the listing -/

theorem formatDoc_ok (clk : Clock) (d : Doc) (h : tsOK d = true) :
    ∃ ca ua, formatDoc clk d = .ok
      [("id", .str (pyStr ((getKey d "_id").getD ((getKey d "id").getD (.str ""))))),
       ("title", (getKey d "title").getD (.str "")),
       ("date", (getKey d "date").getD (.str "")),
       ("time", (getKey d "time").getD (.str "")),
       ("userId", (getKey d "userId").getD (.str "")),
       ("created_at", .str ca), ("updated_at", .str ua)] := by
  unfold tsOK at h
  simp only [Bool.and_eq_true] at h
  obtain ⟨h1, h2⟩ := h
  have hca : ∃ ca, tsField clk (getKey d "created_at") = .ok ca := by
    rcases hc : getKey d "created_at" with _ | v
    · exact ⟨_, rfl⟩
    · rw [hc] at h1
      cases v <;> simp at h1 <;> exact ⟨_, rfl⟩
  have hua : ∃ ua, tsField clk (getKey d "updated_at") = .ok ua := by
    rcases hc : getKey d "updated_at" with _ | v
    · exact ⟨_, rfl⟩
    · rw [hc] at h2
      cases v <;> simp at h2 <;> exact ⟨_, rfl⟩
  obtain ⟨ca, hcaeq⟩ := hca
  obtain ⟨ua, huaeq⟩ := hua
  refine ⟨ca, ua, ?_⟩
  unfold formatDoc
  rw [hcaeq, huaeq]
  rfl

/-- The literal row built by the listing satisfies the claimed row
shape. -/
theorem listedRow_row (d : Doc) (idv : String) (ca ua : String) :
    ListedRow d
      [("id", .str idv),
       ("title", (getKey d "title").getD (.str "")),
       ("date", (getKey d "date").getD (.str "")),
       ("time", (getKey d "time").getD (.str "")),
       ("userId", (getKey d "userId").getD (.str "")),
       ("created_at", .str ca), ("updated_at", .str ua)] := by
  refine ⟨rfl, ?_, ?_, ?_, ?_, ?_⟩
  · intro k hk
    simp only [List.mem_cons, List.not_mem_nil, or_false, not_or] at hk
    obtain ⟨hk1, hk2, hk3, hk4, hk5, hk6, hk7⟩ := hk
    simp [getKey, Ne.symm hk1, Ne.symm hk2, Ne.symm hk3, Ne.symm hk4,
          Ne.symm hk5, Ne.symm hk6, Ne.symm hk7]
  · intro h
    simp [getKey, h]
  · intro h
    simp [getKey, h]
  · intro h
    simp [getKey, h]
  · intro h
    simp [getKey, h]

theorem formatLoop_ok (clk : Clock) (ds : List Doc)
    (h : ∀ d ∈ ds, tsOK d = true) :
    ∃ fds, formatLoop clk ds = .ok fds ∧ List.Forall₂ ListedRow ds fds := by
  induction ds with
  | nil => exact ⟨[], rfl, List.Forall₂.nil⟩
  | cons d rest ih =>
    obtain ⟨ca, ua, hfd⟩ := formatDoc_ok clk d (h d (by simp))
    obtain ⟨fds, hloop, hfa⟩ := ih (fun d' hd' => h d' (by simp [hd']))
    refine ⟨_ :: fds, ?_, List.Forall₂.cons
      (listedRow_row d (pyStr ((getKey d "_id").getD ((getKey d "id").getD (.str ""))))
        ca ua) hfa⟩
    unfold formatLoop
    rw [hfd, hloop]
    rfl

/-- C10: for every user whose stored documents carry well-formed
timestamps, `GET /reminders?userId=` answers 200 and renders each
matching document as exactly the seven fields `id`, `title`, `date`,
`time`, `userId`, `created_at`, `updated_at` — any other stored field
is omitted — with a missing `title`, `date`, `time` or `userId`
rendered as the empty string. -/
theorem claim_C10 (clk : Clock) (st : Store) (u : String)
    (hu : u ≠ "")
    (hts : ∀ d ∈ st.docs, tsOK d = true) :
    ∃ fds, get_reminders clk st (some u)
        = (200, .obj [("success", .bool true),
                      ("reminders", .arr (fds.map .obj)),
                      ("count", .num fds.length)]) ∧
      List.Forall₂ ListedRow (st.docs.filter (userMatches u)) fds := by
  obtain ⟨fds, hloop, hfa⟩ := formatLoop_ok clk (st.docs.filter (userMatches u))
    (fun d hd => hts d (List.mem_of_mem_filter hd))
  refine ⟨fds, ?_, hfa⟩
  unfold get_reminders
  simp [hu, hloop]

/-- Witness for C10 on a store holding one document with an extra
stored field and no title/date/time. -/
theorem claim_C10_witness :
    ∃ fds, get_reminders ⟨3, "2026-10-12"⟩
        ⟨[[("_id", .oid "00000000000000000000000a"), ("userId", .str "u"),
           ("extra", .num 5), ("created_at", .dt 1), ("updated_at", .dt 2)]],
         1, []⟩ (some "u")
        = (200, .obj [("success", .bool true),
                      ("reminders", .arr (fds.map .obj)),
                      ("count", .num fds.length)]) ∧
      List.Forall₂ ListedRow
        (([[("_id", .oid "00000000000000000000000a"), ("userId", .str "u"),
            ("extra", .num 5), ("created_at", .dt 1), ("updated_at", .dt 2)]] :
          List Doc).filter (userMatches "u")) fds :=
  claim_C10 ⟨3, "2026-10-12"⟩
    ⟨[[("_id", .oid "00000000000000000000000a"), ("userId", .str "u"),
       ("extra", .num 5), ("created_at", .dt 1), ("updated_at", .dt 2)]], 1, []⟩
    "u" (by decide) (by decide)

/-! ### C5: an uncaptured or empty array falls through to the object path -/

/-- C5: for every LLM output where an array candidate is captured but
fails to parse as JSON, or parses to an empty array, extraction falls
through to single-object extraction — the response is exactly the one
the object path computes, with no error propagated to the caller. -/
theorem claim_C5 (clk : Clock) (st : Store) (content uid : String) (cap : List Char)
    (hcap : extractArrayCandidate content.data = some cap)
    (hparse : pyjson_loads cap = none ∨ pyjson_loads cap = some (.arr [])) :
    format_reminder clk st content uid = objectStage clk st content uid := by
  have hstage : arrayStage clk st content uid = none := by
    rcases hparse with h | h <;> simp [arrayStage, hcap, h]
  unfold format_reminder
  rw [hstage]

/-- Witness for C5: the capture `[}]` is not valid JSON, so the request
falls through to the object path. -/
theorem claim_C5_witness :
    format_reminder ⟨0, "2026-01-01"⟩ ⟨[], 0, []⟩ "[\x7d] and then some" "u" =
      objectStage ⟨0, "2026-01-01"⟩ ⟨[], 0, []⟩ "[\x7d] and then some" "u" :=
  claim_C5 ⟨0, "2026-01-01"⟩ ⟨[], 0, []⟩ "[\x7d] and then some" "u" ("[\x7d]".data)
    rfl (Or.inl rfl)

/-! ### C6: no recognizable JSON answers 400 with the raw text, saving nothing -/

/-- C6: when neither array extraction nor single-object extraction
succeeds for an LLM output (the array path falls through and any
object capture fails to parse), `/format-reminder` leaves the store
untouched and returns a 400 error whose body carries the raw LLM text
under `raw`. -/
theorem claim_C6 (clk : Clock) (st : Store) (content uid : String)
    (harr : arrayStage clk st content uid = none)
    (hobj : ∀ cap, extractObjectCandidate content.data = some cap →
            pyjson_loads cap = none) :
    (format_reminder clk st content uid).1 = st ∧
    (format_reminder clk st content uid).2.1 = 400 ∧
    bodyField (format_reminder clk st content uid).2.2 "raw" = some (.str content) := by
  unfold format_reminder
  rw [harr]
  cases hoc : extractObjectCandidate content.data with
  | none => simp [objectStage, hoc, bodyField, getKey]
  | some cap => simp [objectStage, hoc, hobj cap hoc, failParseBody, bodyField, getKey]

/-- Witness for C6: an output whose array capture `[}]` and object
capture `{oops}` both fail to parse. -/
theorem claim_C6_witness :
    (format_reminder ⟨0, "2026-01-01"⟩ ⟨[], 0, []⟩ "array [\x7d] object \x7boops\x7d" "u").1
        = ⟨[], 0, []⟩ ∧
    (format_reminder ⟨0, "2026-01-01"⟩ ⟨[], 0, []⟩ "array [\x7d] object \x7boops\x7d" "u").2.1
        = 400 ∧
    bodyField (format_reminder ⟨0, "2026-01-01"⟩ ⟨[], 0, []⟩
        "array [\x7d] object \x7boops\x7d" "u").2.2 "raw"
        = some (.str "array [\x7d] object \x7boops\x7d") :=
  claim_C6 ⟨0, "2026-01-01"⟩ ⟨[], 0, []⟩ "array [\x7d] object \x7boops\x7d" "u"
    (by rfl)
    (by
      intro cap h
      rw [show extractObjectCandidate ("array [\x7d] object \x7boops\x7d").data
            = some ("\x7boops\x7d".data) from rfl] at h
      cases h
      rfl)

end ElderCare
